import Mathlib

/-!
Verification of the AI orchestration core of the vibingu life-logging backend.

This file gives a shallow embedding, in Lean 4, of the parts of the Python
source that the specification's claims are about:

* the rules dimension scorer (`app/services/dimension_analyzer.py`),
* the JSON repair module (`app/services/json_utils.py`),
* the AI gateway's JSON post-processing, retry loop, concurrency governor and
  usage accounting (`app/services/ai_client.py`),
* the tagger's output shaping (`app/services/tagger.py`),
* the record-time parser (`app/services/data_extractor.py`),
* the feed router's commit, history, detail and delete operations
  (`app/routers/feed.py`),
* the chat streaming endpoint (`app/routers/chat.py`).

Modelling conventions: Python float arithmetic on small decimal constants is
embedded as exact rational arithmetic (`ℚ`); Python dict lookups with defaults
become `Option.getD`; Python `datetime` values become a record of a rata-die
day number plus time-of-day fields; calls to the external LLM provider, to
`json.loads`, and to the event loop's timed waits are abstracted as oracle
parameters, while every piece of control flow around them is translated
directly from the source.
-/

namespace Vibingu

/-! ## String helpers mirroring Python primitives -/

/-- Containment of one character list in another, mirroring Python's
`sub in s` substring test. -/
def listHasSub (needle : List Char) : List Char → Bool
  | [] => needle.isEmpty
  | c :: t => needle.isPrefixOf (c :: t) || listHasSub needle t

/-- Python's `sub in s` on strings. -/
def strContains (s sub : String) : Bool := listHasSub sub.data s.data

/-- Number of occurrences of a character in a string, mirroring Python's
`s.count(c)`. -/
def countChar (c : Char) (s : String) : Nat := s.data.count c

/-- Python's binary `max` on rationals, written out so that concrete values
kernel-reduce. -/
def pyMax (a b : ℚ) : ℚ := if a ≤ b then b else a

/-- Python's binary `min` on rationals. -/
def pyMin (a b : ℚ) : ℚ := if a ≤ b then a else b

theorem pyMax_eq (a b : ℚ) : pyMax a b = max a b := (max_def a b).symm

theorem pyMin_eq (a b : ℚ) : pyMin a b = min a b := (min_def a b).symm

/-! ## Rules dimension scorer, from `app/services/dimension_analyzer.py`

The scorer works on a record of the eight wellbeing dimensions.  The Python
code stores them in a dict keyed by the dimension name; here they are the
eight fields of `DimScores`.
-/

/-- The eight wellbeing dimensions. -/
inductive Dim
  | body | mood | social | work | growth | meaning | digital | leisure
deriving DecidableEq, Repr, Fintype

/-- One score per dimension, as produced by
`DimensionAnalyzer.calculate_dimension_scores`. -/
structure DimScores where
  body : ℚ
  mood : ℚ
  social : ℚ
  work : ℚ
  growth : ℚ
  meaning : ℚ
  digital : ℚ
  leisure : ℚ
deriving DecidableEq, Repr

/-- Read one dimension. -/
def DimScores.get (s : DimScores) : Dim → ℚ
  | .body => s.body
  | .mood => s.mood
  | .social => s.social
  | .work => s.work
  | .growth => s.growth
  | .meaning => s.meaning
  | .digital => s.digital
  | .leisure => s.leisure

/-- Write one dimension. -/
def DimScores.set (s : DimScores) : Dim → ℚ → DimScores
  | .body, v => { s with body := v }
  | .mood, v => { s with mood := v }
  | .social, v => { s with social := v }
  | .work, v => { s with work := v }
  | .growth, v => { s with growth := v }
  | .meaning, v => { s with meaning := v }
  | .digital, v => { s with digital := v }
  | .leisure, v => { s with leisure := v }

/-- In-place `scores[dim] += v` of the Python code. -/
def DimScores.add (s : DimScores) (d : Dim) (v : ℚ) : DimScores :=
  s.set d (s.get d + v)

/-- The all-zero starting point `scores = dict.fromkeys(DIMENSIONS, 0.0)`. -/
def initialScores : DimScores := ⟨0, 0, 0, 0, 0, 0, 0, 0⟩

/-- Python's `max(0, min(100, x))` clamp used throughout the analyzer. -/
def clampQ (v : ℚ) : ℚ := pyMax 0 (pyMin 100 v)

/-- The clamp loop `for dim in scores: scores[dim] = max(0, min(100, scores[dim]))`. -/
def clampAll (s : DimScores) : DimScores :=
  ⟨clampQ s.body, clampQ s.mood, clampQ s.social, clampQ s.work,
   clampQ s.growth, clampQ s.meaning, clampQ s.digital, clampQ s.leisure⟩

/-- The `category_to_dimension` dict of `calculate_dimension_scores`. -/
def categoryToDimension (category : String) : Option Dim :=
  if category == "SLEEP" then some .body
  else if category == "DIET" then some .body
  else if category == "ACTIVITY" then some .body
  else if category == "MOOD" then some .mood
  else if category == "SOCIAL" then some .social
  else if category == "WORK" then some .work
  else if category == "GROWTH" then some .growth
  else if category == "SCREEN" then some .digital
  else if category == "LEISURE" then some .leisure
  else none

/-- The metadata keys that `_adjust_by_metadata` reads.  A field is `none`
when the key is absent from the record's `meta_data` dict; `Option.getD`
mirrors the Python `dict.get(key, default)` calls. -/
structure AnalyzerMeta where
  duration_hours : Option ℚ
  quality : Option String
  is_healthy : Option Bool
  caffeine_mg : Option ℚ
  duration_minutes : Option ℚ
  intensity : Option String
deriving DecidableEq, Repr

/-- A metadata record with every relevant key absent. -/
def AnalyzerMeta.empty : AnalyzerMeta := ⟨none, none, none, none, none, none⟩

/-- Branch structure of `DimensionAnalyzer._adjust_by_metadata` before its
final clamp loop.  `nowHour` stands for the Python `datetime.now().hour` read
in the DIET branch. -/
def metaAdjusted (s : DimScores) (category : String) (m : AnalyzerMeta)
    (nowHour : Nat) : DimScores :=
  if category == "SLEEP" then
    let duration := m.duration_hours.getD 7
    let quality := m.quality.getD "normal"
    let s :=
      if 7 ≤ duration ∧ duration ≤ 9 then s.add .body 20
      else if duration < 6 then s.add .body (-10)
      else s
    if quality == "good" then (s.add .body 10).add .mood 15
    else if quality == "poor" then s.add .mood (-10)
    else s
  else if category == "DIET" then
    let isHealthy := m.is_healthy.getD true
    let hasCaffeine := decide (m.caffeine_mg.getD 0 > 0)
    let s := if isHealthy then s.add .body 15 else s.add .body (-5)
    if hasCaffeine && decide (nowHour ≥ 15) then s.add .body (-5) else s
  else if category == "ACTIVITY" then
    let duration := m.duration_minutes.getD 30
    let intensity := m.intensity.getD "moderate"
    let s := if duration ≥ 30 then (s.add .body 20).add .mood 10 else s
    if intensity == "high" then s.add .body 10 else s
  else if category == "GROWTH" then
    (s.add .meaning 20).add .mood 10
  else if category == "SOCIAL" then
    let quality := m.quality.getD "good"
    if quality == "good" then (s.add .mood 15).add .meaning 10 else s
  else s

/-- Translation of `DimensionAnalyzer._adjust_by_metadata`: the category
branches of `metaAdjusted` followed by the in-place clamp loop that ends the
Python function. -/
def adjustByMetadata (s : DimScores) (category : String) (m : AnalyzerMeta)
    (nowHour : Nat) : DimScores :=
  clampAll (metaAdjusted s category m nowHour)

/-- The `positive_tags` and `negative_tags` lookup of `_adjust_by_tags`;
positives are consulted first, as in the Python `if tag in positive_tags`
before `elif tag in negative_tags`. -/
def tagDelta (tag : String) : Option (Dim × ℚ) :=
  if tag == "#心情/开心" then some (.mood, 15)
  else if tag == "#心情/满足" then some (.mood, 10)
  else if tag == "#心情/平静" then some (.mood, 10)
  else if tag == "#身体/精力充沛" then some (.body, 15)
  else if tag == "#成长/学习" then some (.growth, 15)
  else if tag == "#习惯/好习惯" then some (.meaning, 10)
  else if tag == "#社交/朋友" then some (.social, 15)
  else if tag == "#社交/家人" then some (.social, 15)
  else if tag == "#心情/焦虑" then some (.mood, -15)
  else if tag == "#心情/烦躁" then some (.mood, -10)
  else if tag == "#心情/沮丧" then some (.mood, -20)
  else if tag == "#身体/疲劳" then some (.body, -15)
  else if tag == "#工作/拖延" then some (.work, -15)
  else if tag == "#习惯/坏习惯" then some (.meaning, -10)
  else none

/-- Translation of `DimensionAnalyzer._adjust_by_tags`. -/
def adjustByTags (s : DimScores) (tags : List String) : DimScores :=
  clampAll <| tags.foldl
    (fun acc t =>
      match tagDelta t with
      | some (d, v) => acc.add d v
      | none => acc)
    s

/-- Translation of `DimensionAnalyzer._calculate_meaning_score`: the weighted
sum over growth, social, work, leisure and mood, clamped to the 0..100 band.
The Python decimal literals 0.3, 0.2 and 0.15 are embedded as exact
rationals. -/
def calculateMeaningScore (s : DimScores) : ℚ :=
  pyMin 100 (pyMax 0
    (s.growth * (3 / 10) + s.social * (2 / 10) + s.work * (2 / 10) +
      s.leisure * (15 / 100) + s.mood * (15 / 100)))

/-- First step of `calculate_dimension_scores`: all dims at 0, the primary
dim of the category raised to the 70-point base. -/
def baseScores (category : String) : DimScores :=
  match categoryToDimension category with
  | some d => initialScores.set d 70
  | none => initialScores

/-- Translation of `DimensionAnalyzer.calculate_dimension_scores`.  `meta`
is `none` when the Python `meta_data` argument is `None` or an empty dict
(both falsy under `if meta_data:`); an empty `tags` list likewise skips the
tag adjustment, exactly as `if tags:` does. -/
def calculateDimensionScores (category : String) (meta : Option AnalyzerMeta)
    (tags : List String) (nowHour : Nat) : DimScores :=
  let scores := baseScores category
  let scores :=
    match meta with
    | some m => adjustByMetadata scores category m nowHour
    | none => scores
  let scores := if tags.isEmpty then scores else adjustByTags scores tags
  { scores with meaning := calculateMeaningScore scores }

/-- Modelled from the claim's wording (spec section 4.7), for comparison with
the source translation `calculateDimensionScores`: start all dims at 0, set
the primary dim to 65, apply the claimed metadata micro-adjustments
(SLEEP duration in the 7..9 band gives body +20, below 6 gives body −10 and
mood −5; SLEEP quality good gives body +10 and mood +10, poor gives body −5
and mood −10; DIET healthy gives body +15, unhealthy body −5; ACTIVITY of at
least 30 minutes gives body +15 and mood +5; SCREEN at most 120 minutes gives
digital +25, at least 360 gives digital −20), raise meaning to
max(meaning, 0.30·growth + 0.20·social + 0.20·work + 0.15·leisure +
0.15·mood), then clamp every dim to the 0..100 band.  The claimed SCREEN rule
needs a total-minutes input, which the claim reads from the metadata. -/
def claimedDimensionScores (category : String) (meta : Option AnalyzerMeta)
    (totalMinutes : Option ℚ) : DimScores :=
  let scores := initialScores
  let scores :=
    match categoryToDimension category with
    | some d => scores.set d 65
    | none => scores
  let scores :=
    match meta with
    | some m =>
      if category == "SLEEP" then
        let duration := m.duration_hours.getD 7
        let quality := m.quality.getD "normal"
        let scores :=
          if 7 ≤ duration ∧ duration ≤ 9 then scores.add .body 20
          else if duration < 6 then (scores.add .body (-10)).add .mood (-5)
          else scores
        if quality == "good" then (scores.add .body 10).add .mood 10
        else if quality == "poor" then (scores.add .body (-5)).add .mood (-10)
        else scores
      else if category == "DIET" then
        if m.is_healthy.getD true then scores.add .body 15
        else scores.add .body (-5)
      else if category == "ACTIVITY" then
        if m.duration_minutes.getD 30 ≥ 30 then
          (scores.add .body 15).add .mood 5
        else scores
      else if category == "SCREEN" then
        match totalMinutes with
        | some tm =>
          if tm ≤ 120 then scores.add .digital 25
          else if tm ≥ 360 then scores.add .digital (-20)
          else scores
        | none => scores
      else scores
    | none => scores
  let scores := scores.set .meaning (pyMax scores.meaning
    (scores.growth * (3 / 10) + scores.social * (2 / 10) +
      scores.work * (2 / 10) + scores.leisure * (15 / 100) +
      scores.mood * (15 / 100)))
  clampAll scores

/-! Basic range lemmas for the scorer. -/

/-- All eight dimensions lie in the 0..100 band. -/
def DimScores.InRange (s : DimScores) : Prop :=
  ∀ d : Dim, 0 ≤ s.get d ∧ s.get d ≤ 100

theorem clampQ_nonneg (v : ℚ) : 0 ≤ clampQ v := by
  rw [clampQ, pyMax_eq]; exact le_max_left 0 _

theorem clampQ_le (v : ℚ) : clampQ v ≤ 100 := by
  rw [clampQ, pyMax_eq, pyMin_eq]
  exact max_le (by norm_num) (min_le_left 100 v)

theorem get_clampAll (s : DimScores) (d : Dim) :
    (clampAll s).get d = clampQ (s.get d) := by
  cases d <;> rfl

theorem clampAll_inRange (s : DimScores) : (clampAll s).InRange := by
  intro d
  rw [get_clampAll]
  exact ⟨clampQ_nonneg _, clampQ_le _⟩

theorem calculateMeaningScore_nonneg (s : DimScores) :
    0 ≤ calculateMeaningScore s := by
  rw [calculateMeaningScore, pyMin_eq, pyMax_eq]
  exact le_min (by norm_num) (le_max_left 0 _)

theorem calculateMeaningScore_le (s : DimScores) :
    calculateMeaningScore s ≤ 100 := by
  rw [calculateMeaningScore, pyMin_eq]
  exact min_le_left 100 _

theorem setMeaning_inRange (s : DimScores) (h : s.InRange) :
    ({ s with meaning := calculateMeaningScore s }).InRange := by
  intro d
  cases d
  case meaning =>
    exact ⟨calculateMeaningScore_nonneg s, calculateMeaningScore_le s⟩
  case body => simpa [DimScores.get] using h Dim.body
  case mood => simpa [DimScores.get] using h Dim.mood
  case social => simpa [DimScores.get] using h Dim.social
  case work => simpa [DimScores.get] using h Dim.work
  case growth => simpa [DimScores.get] using h Dim.growth
  case digital => simpa [DimScores.get] using h Dim.digital
  case leisure => simpa [DimScores.get] using h Dim.leisure

theorem baseScores_inRange (category : String) : (baseScores category).InRange := by
  unfold baseScores
  cases categoryToDimension category with
  | none => intro d; cases d <;> decide
  | some d => cases d <;> (intro d2; cases d2 <;> decide)

theorem adjustByMetadata_inRange (s : DimScores) (category : String)
    (m : AnalyzerMeta) (nowHour : Nat) :
    (adjustByMetadata s category m nowHour).InRange :=
  clampAll_inRange _

theorem adjustByTags_inRange (s : DimScores) (tags : List String) :
    (adjustByTags s tags).InRange :=
  clampAll_inRange _

/-- Every output of the rules scorer has all eight dims in the 0..100 band. -/
theorem calculateDimensionScores_inRange (category : String)
    (meta : Option AnalyzerMeta) (tags : List String) (nowHour : Nat) :
    (calculateDimensionScores category meta tags nowHour).InRange := by
  unfold calculateDimensionScores
  apply setMeaning_inRange
  split
  · cases meta with
    | none => exact baseScores_inRange category
    | some m => exact adjustByMetadata_inRange _ _ _ _
  · exact adjustByTags_inRange _ _

/-- The final step of the scorer overwrites the meaning dim with the clamped
weighted sum of the other dims; it does not take a max with the running
meaning value. -/
theorem calculateDimensionScores_meaning (category : String)
    (meta : Option AnalyzerMeta) (tags : List String) (nowHour : Nat) :
    (calculateDimensionScores category meta tags nowHour).meaning =
      calculateMeaningScore (calculateDimensionScores category meta tags nowHour) :=
  rfl

/-- C7 counterexample: the claim's algorithm sets the primary dim to 65, but
the source's `calculate_dimension_scores` sets it to 70.  At the concrete
input category SLEEP with no metadata and no tags, the source scorer yields
body 70 while the claimed algorithm (`claimedDimensionScores`, modelled from
the claim's own wording) yields body 65, so the claim is false at this
input. -/
theorem C7_counterexample :
    (calculateDimensionScores "SLEEP" none [] 12).body = 70 ∧
    (claimedDimensionScores "SLEEP" none none).body = 65 := by
  constructor <;> rfl

/-- C7 (amended): the rules scorer starts all eight dims at 0 and sets the
category's primary dim to 70 (not 65); its metadata micro-adjustments follow
the source's table (which differs from the claimed one and has no SCREEN
rule at all — conjunct four shows SCREEN metadata never changes the result);
meaning is finally overwritten with the clamped weighted sum
0.30·growth + 0.20·social + 0.20·work + 0.15·leisure + 0.15·mood of the
other dims (not maxed with its running value); and every dim of every output
lies in the 0..100 band. -/
theorem C7_rules_scorer :
    (∀ category meta tags nowHour,
        (calculateDimensionScores category meta tags nowHour).InRange) ∧
    (∀ category meta tags nowHour,
        (calculateDimensionScores category meta tags nowHour).meaning =
          calculateMeaningScore
            (calculateDimensionScores category meta tags nowHour)) ∧
    calculateDimensionScores "SLEEP" none [] 12 = ⟨70, 0, 0, 0, 0, 0, 0, 0⟩ ∧
    (∀ m tags nowHour,
        calculateDimensionScores "SCREEN" (some m) tags nowHour =
          calculateDimensionScores "SCREEN" none tags nowHour) := by
  refine ⟨calculateDimensionScores_inRange,
    calculateDimensionScores_meaning, ?_, ?_⟩
  · norm_num [calculateDimensionScores, baseScores, categoryToDimension,
      initialScores, DimScores.set, calculateMeaningScore, pyMin, pyMax]
  · intro m tags nowHour
    rfl

/-! ## JSON repair, from `app/services/json_utils.py`

The module's own parsing strategies are translated literally; the calls to
Python's `json.loads` are abstracted as a parameter
`parse : String → Option α`, where `some v` means the library parser
succeeded with value `v` and `none` means it raised `JSONDecodeError`.
Python's `str.strip` family is embedded as Lean's `String.trim` family
(ASCII whitespace).  Literal brace characters are written with `\x7b` and
`\x7d` escapes. -/

/-- Python's `str.strip` over the character list (ASCII whitespace at both
ends), written with structural list recursion so concrete values
kernel-reduce. -/
def pyStrip (s : String) : String :=
  String.mk (((s.data.dropWhile Char.isWhitespace).reverse.dropWhile
    Char.isWhitespace).reverse)

/-- Python's `str.rstrip`. -/
def pyStripRight (s : String) : String :=
  String.mk ((s.data.reverse.dropWhile Char.isWhitespace).reverse)

/-- Python's `str.endswith`. -/
def pyEndsWith (s suffix : String) : Bool := suffix.data.isSuffixOf s.data

/-- The opening-brace character. -/
def braceL : Char := '\x7b'

/-- The closing-brace character. -/
def braceR : Char := '\x7d'

/-- Split a character list at the first occurrence of `needle`, returning
the part before it and the part after it. -/
def splitFirstSub (needle : List Char) : List Char → Option (List Char × List Char)
  | [] => if needle.isEmpty then some ([], []) else none
  | c :: t =>
    if needle.isPrefixOf (c :: t) then some ([], (c :: t).drop needle.length)
    else
      match splitFirstSub needle t with
      | some (pre, post) => some (c :: pre, post)
      | none => none

/-- Search of the `_CODE_BLOCK_RE` markdown-fence regex combined with the
`.strip()` that `extract_json` applies to the captured group: find the first
occurrence of three backticks, skip an immediately following optional `json`
marker, and capture up to the next three backticks.  The regex's whitespace
absorption around the capture group is subsumed by the final strip. -/
def stripFence (content : String) : Option String :=
  let fence : List Char := ['\x60', '\x60', '\x60']
  match splitFirstSub fence content.data with
  | none => none
  | some (_, rest) =>
    let rest := if "json".data.isPrefixOf rest then rest.drop 4 else rest
    match splitFirstSub fence rest with
    | none => none
    | some (interior, _) => some (pyStrip (String.mk interior))

/-- Python's `content[a : b + 1]` slice on character lists. -/
def sliceChars (l : List Char) (a b : Nat) : List Char := (l.take (b + 1)).drop a

/-- Index of the last occurrence of a character, mirroring `str.rfind`
(with `none` for the −1 sentinel). -/
def lastIdxOf (c : Char) (l : List Char) : Option Nat :=
  match l.reverse.findIdx? (· == c) with
  | some i => some (l.length - 1 - i)
  | none => none

/-- The bracket-slice step of `extract_json`: locate the first `oc` and the
last `cc`, and when both exist in the right order return the enclosed span.
Used with braces for strategy three and square brackets for strategy four. -/
def bracketSlice (oc cc : Char) (content : String) : Option String :=
  match content.data.findIdx? (· == oc), lastIdxOf cc content.data with
  | some a, some b => if a < b then some (String.mk (sliceChars content.data a b)) else none
  | _, _ => none

/-- The truncation-suffix candidates of `_try_repair_json`. -/
def pySuffixes : List String :=
  ["", "\"", "\"\x7d", "\"]", "\"]\x7d", "\"\x7d]\x7d", "\"\x7d\x7d",
   "null\x7d", "null]"]

/-- One candidate of the repair loop: optionally trim one trailing comma
(only when the `trim_char` iteration variable is non-empty and the text ends
with a comma), then append the suffix. -/
def mkCandidate (text trimChar suffix : String) : String :=
  let c := if trimChar ≠ "" ∧ pyEndsWith text "," then String.mk text.data.dropLast else text
  c ++ suffix

/-- Close-out step of `_try_repair_json`: count unmatched braces and
brackets; when neither count is negative, append that many closing brackets
then closing braces, otherwise skip the candidate. -/
def closeCandidate (candidate : String) : Option String :=
  let ob : Int := (countChar braceL candidate : Int) - countChar braceR candidate
  let obk : Int := (countChar '[' candidate : Int) - countChar ']' candidate
  if 0 ≤ ob ∧ 0 ≤ obk then
    some (candidate ++ String.mk (List.replicate obk.toNat ']') ++
      String.mk (List.replicate ob.toNat braceR))
  else none

/-- The ordered candidate strings attempted by `_try_repair_json`: for each
suffix, first the untrimmed then the comma-trimmed variant, with the
closing-bracket completion applied and negative-count candidates dropped. -/
def repairCandidates (truncated : String) : List String :=
  let text := pyStripRight truncated
  ((pySuffixes.map fun suffix =>
      [mkCandidate text "" suffix, mkCandidate text "," suffix]).flatten).filterMap
    closeCandidate

/-- First successful parse over a list of candidate strings. -/
def firstParse (parse : String → Option α) : List String → Option α
  | [] => none
  | c :: t =>
    match parse c with
    | some v => some v
    | none => firstParse parse t

/-- Translation of `_try_repair_json`. -/
def tryRepairJson (parse : String → Option α) (truncated : String) : Option α :=
  firstParse parse (repairCandidates truncated)

/-- Index of the first opening brace or bracket, from the step-four loop of
`extract_json`. -/
def firstOpenIdx (content : String) : Option Nat :=
  content.data.findIdx? fun ch => ch == braceL || ch == '['

/-- Translation of `extract_json`: the five strategies in source order, each
falling through to the next on parse failure, with the fenced interior
replacing the working content for the later strategies exactly as the Python
reassignment of `content` does. -/
def extract_json (parse : String → Option α) (raw_content : String) : Except String α :=
  if pyStrip raw_content == "" then Except.error "AI 返回内容为空"
  else
    let content := pyStrip raw_content
    match parse content with
    | some v => Except.ok v
    | none =>
      let fenceOpt := stripFence content
      let content := fenceOpt.getD content
      let fenceParsed :=
        match fenceOpt with
        | some interior => parse interior
        | none => none
      match fenceParsed with
      | some v => Except.ok v
      | none =>
        match (bracketSlice braceL braceR content).bind parse with
        | some v => Except.ok v
        | none =>
          match (bracketSlice '[' ']' content).bind parse with
          | some v => Except.ok v
          | none =>
            let repaired :=
              match firstOpenIdx content with
              | some i => tryRepairJson parse (String.mk (content.data.drop i))
              | none => none
            match repaired with
            | some v => Except.ok v
            | none =>
              Except.error ("AI 返回内容无法解析为 JSON: " ++
                String.mk (raw_content.data.take 100))

/-- Translation of `safe_extract_json`: return the caller-supplied fallback
instead of failing. -/
def safe_extract_json (parse : String → Option α) (raw_content : String)
    (fallback : α) : α :=
  match extract_json parse raw_content with
  | Except.ok v => v
  | Except.error _ => fallback

/-- The ordered list of candidate strings that the claim's strategies
produce: the trimmed content itself, the fenced interior when a fence
matches, the outermost brace span, the outermost bracket span, and the
repair candidates when an opening brace or bracket occurs; the bracket-span
and repair strategies work on the fenced interior when a fence matched,
mirroring the Python reassignment of `content`. -/
def strategyList (raw_content : String) : List String :=
  let content := pyStrip raw_content
  let fenceOpt := stripFence content
  let content2 := fenceOpt.getD content
  [content] ++ fenceOpt.toList ++ (bracketSlice braceL braceR content2).toList ++
    (bracketSlice '[' ']' content2).toList ++
    (match firstOpenIdx content2 with
     | some i => repairCandidates (String.mk (content2.data.drop i))
     | none => [])

theorem firstParse_append (parse : String → Option α) (l1 l2 : List String) :
    firstParse parse (l1 ++ l2) =
      match firstParse parse l1 with
      | some v => some v
      | none => firstParse parse l2 := by
  induction l1 with
  | nil => simp [firstParse]
  | cons c t ih =>
    simp only [List.cons_append, firstParse]
    cases parse c <;> simp [ih]

theorem firstParse_toList (parse : String → Option α) (o : Option String) :
    firstParse parse o.toList = o.bind parse := by
  cases o with
  | none => rfl
  | some s => simp [firstParse, Option.toList]; cases parse s <;> simp

theorem findIdx?_isSome_of_mem (p : Char → Bool) (l : List Char) (c : Char)
    (hc : c ∈ l) (hp : p c = true) : (l.findIdx? p).isSome := by
  induction l with
  | nil => cases hc
  | cons a t ih =>
    rw [List.findIdx?_cons]
    rcases List.mem_cons.mp hc with rfl | hct
    · simp [hp]
    · cases hpa : p a
      · simp only [hpa, Bool.false_eq_true, if_false]
        simpa using ih hct
      · simp [hpa]

/-- Whenever the character counts leave an unmatched opening brace or an
unmatched opening bracket, the step-four guard of `extract_json` (an opening
brace or bracket occurs at all) holds, so the repair pass is attempted. -/
theorem firstOpenIdx_isSome_of_unmatched (content : String)
    (h : countChar braceR content < countChar braceL content ∨
         countChar ']' content < countChar '[' content) :
    (firstOpenIdx content).isSome := by
  unfold firstOpenIdx
  unfold countChar at h
  rcases h with h | h
  · exact findIdx?_isSome_of_mem _ _ braceL
      (List.count_pos_iff.mp (by omega)) (by simp)
  · exact findIdx?_isSome_of_mem _ _ '['
      (List.count_pos_iff.mp (by omega)) (by simp)

/-- The empty-content early return of `extract_json`. -/
theorem extract_json_empty (parse : String → Option α) (raw : String)
    (h : pyStrip raw = "") :
    extract_json parse raw = Except.error "AI 返回内容为空" := by
  unfold extract_json
  simp [h]

/-- The strategies of `extract_json` fire in order, stopping at the first
success; when every candidate fails to parse, a failure is raised. -/
theorem extract_json_eq_firstParse (parse : String → Option α) (raw : String)
    (h : pyStrip raw ≠ "") :
    extract_json parse raw =
      match firstParse parse (strategyList raw) with
      | some v => Except.ok v
      | none =>
        Except.error ("AI 返回内容无法解析为 JSON: " ++
          String.mk (raw.data.take 100)) := by
  have hb : (pyStrip raw == "") = false := beq_eq_false_iff_ne.mpr h
  unfold extract_json strategyList tryRepairJson
  simp only [hb, Bool.false_eq_true, if_false, List.cons_append, List.nil_append,
    firstParse_append, firstParse_toList, firstParse]
  cases hp : parse (pyStrip raw) with
  | some v => simp [firstParse, *]
  | none =>
    cases hf : stripFence (pyStrip raw) with
    | none =>
      cases hob : bracketSlice braceL braceR (pyStrip raw) with
      | some s =>
        cases hpo : parse s with
        | some v => simp [firstParse, *]
        | none =>
          cases hab : bracketSlice '[' ']' (pyStrip raw) with
          | some s2 =>
            cases hpa : parse s2 with
            | some v => simp [firstParse, *]
            | none =>
              cases hoi : firstOpenIdx (pyStrip raw) with
              | none => simp [firstParse, *]
              | some i =>
                cases hrp : firstParse parse
                    (repairCandidates (String.mk ((pyStrip raw).data.drop i))) <;>
                  simp [firstParse, *]
          | none =>
            cases hoi : firstOpenIdx (pyStrip raw) with
            | none => simp [firstParse, *]
            | some i =>
              cases hrp : firstParse parse
                  (repairCandidates (String.mk ((pyStrip raw).data.drop i))) <;>
                simp [firstParse, *]
      | none =>
        cases hab : bracketSlice '[' ']' (pyStrip raw) with
        | some s2 =>
          cases hpa : parse s2 with
          | some v => simp [firstParse, *]
          | none =>
            cases hoi : firstOpenIdx (pyStrip raw) with
            | none => simp [firstParse, *]
            | some i =>
              cases hrp : firstParse parse
                  (repairCandidates (String.mk ((pyStrip raw).data.drop i))) <;>
                simp [firstParse, *]
        | none =>
          cases hoi : firstOpenIdx (pyStrip raw) with
          | none => simp [firstParse, *]
          | some i =>
            cases hrp : firstParse parse
                (repairCandidates (String.mk ((pyStrip raw).data.drop i))) <;>
              simp [firstParse, *]
    | some interior =>
      cases hpi : parse interior with
      | some v => simp [firstParse, *]
      | none =>
        cases hob : bracketSlice braceL braceR interior with
        | some s =>
          cases hpo : parse s with
          | some v => simp [firstParse, *]
          | none =>
            cases hab : bracketSlice '[' ']' interior with
            | some s2 =>
              cases hpa : parse s2 with
              | some v => simp [firstParse, *]
              | none =>
                cases hoi : firstOpenIdx interior with
                | none => simp [firstParse, *]
                | some i =>
                  cases hrp : firstParse parse
                      (repairCandidates (String.mk (interior.data.drop i))) <;>
                    simp [firstParse, *]
            | none =>
              cases hoi : firstOpenIdx interior with
              | none => simp [firstParse, *]
              | some i =>
                cases hrp : firstParse parse
                    (repairCandidates (String.mk (interior.data.drop i))) <;>
                  simp [firstParse, *]
        | none =>
          cases hab : bracketSlice '[' ']' interior with
          | some s2 =>
            cases hpa : parse s2 with
            | some v => simp [firstParse, *]
            | none =>
              cases hoi : firstOpenIdx interior with
              | none => simp [firstParse, *]
              | some i =>
                cases hrp : firstParse parse
                    (repairCandidates (String.mk (interior.data.drop i))) <;>
                  simp [firstParse, *]
          | none =>
            cases hoi : firstOpenIdx interior with
            | none => simp [firstParse, *]
            | some i =>
              cases hrp : firstParse parse
                  (repairCandidates (String.mk (interior.data.drop i))) <;>
                simp [firstParse, *]

/-- C8: for every input string, the JSON repair parser applies its
strategies in source order, stopping at the first success — parse as-is,
strip a markdown fence and parse the interior, parse the outermost brace
span, parse the outermost bracket span, then the repair pass (suffix
candidates, optional trailing-comma trim, closing brackets and braces for
the unmatched depth); when every strategy fails it raises a failure, and the
safe variant returns the caller-supplied fallback instead.  `strategyList`
is the ordered candidate list; the final conjunct checks that the repair
pass is attempted whenever an unmatched opening brace or bracket exists (its
guard in the code — an opening brace or bracket occurring at all — is weaker
than the claim's wording, so the claimed condition still triggers it). -/
theorem C8_json_repair_strategies (parse : String → Option α) :
    (∀ raw, pyStrip raw = "" →
        extract_json parse raw = Except.error "AI 返回内容为空") ∧
    (∀ raw, pyStrip raw ≠ "" →
        extract_json parse raw =
          match firstParse parse (strategyList raw) with
          | some v => Except.ok v
          | none =>
            Except.error ("AI 返回内容无法解析为 JSON: " ++
              String.mk (raw.data.take 100))) ∧
    (∀ raw fallback v, extract_json parse raw = Except.ok v →
        safe_extract_json parse raw fallback = v) ∧
    (∀ raw fallback msg, extract_json parse raw = Except.error msg →
        safe_extract_json parse raw fallback = fallback) ∧
    (∀ content, countChar braceR content < countChar braceL content ∨
        countChar ']' content < countChar '[' content →
        (firstOpenIdx content).isSome) := by
  refine ⟨extract_json_empty parse, extract_json_eq_firstParse parse, ?_, ?_,
    firstOpenIdx_isSome_of_unmatched⟩
  · intro raw fb v hv
    unfold safe_extract_json
    rw [hv]
  · intro raw fb msg hm
    unfold safe_extract_json
    rw [hm]

/-- A tiny concrete stand-in for `json.loads`, used only to exercise the
strategy theorems at concrete inputs: it accepts exactly the two-character
string of an opening and a closing brace. -/
def demoParse (s : String) : Option Nat :=
  if s == "\x7b\x7d" then some 7 else none

/-- Witness for C8 at a concrete input: the text has leading junk around a
brace span, so the first two strategies fail and the brace-span strategy
succeeds. -/
theorem C8_witness :
    pyStrip "x \x7b\x7d y" ≠ "" ∧
    extract_json demoParse "x \x7b\x7d y" =
      match firstParse demoParse (strategyList "x \x7b\x7d y") with
      | some v => Except.ok v
      | none =>
        Except.error ("AI 返回内容无法解析为 JSON: " ++
          String.mk ("x \x7b\x7d y".data.take 100)) :=
  ⟨by decide, (C8_json_repair_strategies demoParse).2.1 "x \x7b\x7d y" (by decide)⟩

/-! ## AI gateway, from `app/services/ai_client.py`

The upstream provider, the event loop's timed semaphore waits, and the JSON
library are abstracted as oracles: `AcqOracle` says whether the i-th timed
semaphore acquire of a call obtains a permit within its timeout, and the
`calls` function gives the outcome of the i-th upstream invocation.  All
control flow around them — the acquire-with-upgrade protocol, the retry
loop with fallback, the usage accounting and the JSON post-processing — is
translated from the source.  The per-model semaphore sizing table only
determines when a timed wait succeeds, which the oracle already decides, so
it is not re-embedded. -/

/-- Python's `str.lower` (ASCII). -/
def pyLower (s : String) : String := String.mk (s.data.map Char.toLower)

/-- The `UPGRADE_MAP` of `ModelConcurrencyLimiter`, consulted with the
lower-cased model name as in `acquire_with_upgrade`. -/
def upgradeMap (modelLower : String) : Option String :=
  if modelLower == "glm-4.6v-flash" then some "glm-4.6v"
  else if modelLower == "glm-4.7-flash" then some "glm-4.7"
  else none

/-- Oracle deciding whether the i-th timed semaphore acquire of this call
obtains a permit within its timeout. -/
def AcqOracle : Type := Nat → Bool

/-- Result of `acquire_with_upgrade`: the success flag and the model whose
permit was (or would have been) taken, plus the trace of timed acquire
attempts as (model, timeout seconds, success) triples. -/
structure AcquireResult where
  acquired : Bool
  model : String
  attempts : List (String × Nat × Bool)
deriving DecidableEq, Repr

/-- Translation of `ModelConcurrencyLimiter.acquire_with_upgrade`: a
1-second try on the requested model; on timeout, a `timeout`-second try on
the upgrade-map target when one exists; on further timeout, a
`timeout`-second wait back on the original model.  `k` indexes the oracle;
the advanced index is returned alongside. -/
def acquireWithUpgrade (model : String) (timeout : Nat) (o : AcqOracle)
    (k : Nat) : AcquireResult × Nat :=
  if o k then (⟨true, model, [(model, 1, true)]⟩, k + 1)
  else
    match upgradeMap (pyLower model) with
    | some upgrade =>
      if o (k + 1) then
        (⟨true, upgrade, [(model, 1, false), (upgrade, timeout, true)]⟩, k + 2)
      else
        (⟨o (k + 2), model,
          [(model, 1, false), (upgrade, timeout, false),
           (model, timeout, o (k + 2))]⟩, k + 3)
    | none =>
      (⟨o (k + 1), model, [(model, 1, false), (model, timeout, o (k + 1))]⟩,
        k + 2)

/-- Outcome of one upstream invocation: a provider response or a raised
exception rendered as its textual form. -/
inductive CallOutcome (ρ : Type)
  | success (response : ρ)
  | failure (errText : String)
deriving DecidableEq, Repr

/-- The usage block of a provider response. -/
structure Usage where
  prompt_tokens : Nat
  completion_tokens : Nat
  total_tokens : Nat
deriving DecidableEq, Repr

/-- A provider chat/vision response: `choices[0].message.content` (which the
provider may omit, hence `Option`) and the optional usage block. -/
structure AIResponse where
  content : Option String
  usage : Option Usage
deriving DecidableEq, Repr

/-- The fields of `AIClientError`. -/
structure AIClientError where
  message : String
  error_code : Option String
  retryable : Bool
deriving DecidableEq, Repr

/-- Translation of `AIClient._is_retryable_error`: the textual form contains
one of the six retryable codes. -/
def isRetryableError (errText : String) : Bool :=
  strContains errText "429" || strContains errText "1302" ||
    strContains errText "500" || strContains errText "502" ||
    strContains errText "503" || strContains errText "504"

/-- The model roster of the client, resolved from configuration. -/
structure ModelsConfig where
  vision : String
  vision_flash : String
  text : String
  text_flash : String
  smart : String
  embedding : String
deriving DecidableEq, Repr

/-- Translation of `AIClient._get_fallback_model`: the `fallbacks` dict maps
the premium vision, text and smart models to their flash tiers.  The dict is
keyed by resolved model names with later duplicate keys overwriting earlier
ones, so the lookup checks the smart key first. -/
def getFallbackModel (cfg : ModelsConfig) (model : String) : Option String :=
  if model == cfg.smart then some cfg.text_flash
  else if model == cfg.text then some cfg.text_flash
  else if model == cfg.vision then some cfg.vision_flash
  else none

/-- Python's `min` on naturals, written out so concrete values reduce. -/
def pyMinNat (a b : Nat) : Nat := if a ≤ b then a else b

/-- The retry configuration constants of `AIClient.__init__`. -/
def maxRetries : Nat := 3

/-- The attempt budget `self.max_retries + 2` of `_execute_with_retry`. -/
def maxTotalAttempts : Nat := maxRetries + 2

/-- The events a gateway call can produce, in order: a permit acquisition
round, an upstream invocation on the concrete model, a backoff sleep, and a
permit release.  The release is emitted by the `finally` clause, after the
backoff sleep of the handler when there is one. -/
inductive GwEvent (ρ : Type)
  | acquire (requested : String) (res : AcquireResult)
  | invoke (model : String) (outcome : CallOutcome ρ)
  | sleep (delay : Nat)
  | release (model : String)
deriving DecidableEq, Repr

/-- The message of the post-loop `MAX_RETRIES_EXCEEDED` error. -/
def maxRetriesMsg (totalAttempts : Nat) (lastError : Option String) : String :=
  "AI 调用失败，已重试 " ++ toString totalAttempts ++ " 次: " ++
    (match lastError with
     | some e => e
     | none => "None")

/-- Translation of the `while` loop of `AIClient._execute_with_retry`.  The
loop guard `total_attempts < max_total_attempts` is carried as structural
fuel (the wrapper passes `maxTotalAttempts` and zero attempts, so
`fuel = maxTotalAttempts - totalAttempts` throughout); every iteration that
re-enters the loop has incremented `total_attempts` by exactly one, so the
two formulations coincide.  The events list records, per iteration, the
acquire round, the invocation on the concrete model returned by the
acquisition, the backoff sleep when one happens, and the release of the
concrete model's permit from the `finally` clause. -/
def executeWithRetryAux (cfg : ModelsConfig) (allowFallback : Bool)
    (calls : Nat → CallOutcome ρ) (acq : AcqOracle) :
    Nat → Nat → Bool → String → Option String → Nat → Nat →
      List (GwEvent ρ) × Except AIClientError ρ
  | 0, totalAttempts, _, _, lastError, _, _ =>
    ([], Except.error
      ⟨maxRetriesMsg totalAttempts lastError, some "MAX_RETRIES_EXCEEDED", false⟩)
  | fuel + 1, totalAttempts, hasFallenBack, requested, _, kAcq, kCall =>
    let acqStep := acquireWithUpgrade requested 90 acq kAcq
    let ares := acqStep.1
    let k2 := acqStep.2
    if ares.acquired = false then
      ([GwEvent.acquire requested ares], Except.error
        ⟨"模型 " ++ requested ++ " 并发已满，等待超时", some "CONCURRENCY_LIMIT", true⟩)
    else
      let actual := ares.model
      match calls kCall with
      | CallOutcome.success resp =>
        ([GwEvent.acquire requested ares,
          GwEvent.invoke actual (CallOutcome.success resp),
          GwEvent.release actual], Except.ok resp)
      | CallOutcome.failure errText =>
        let ta := totalAttempts + 1
        let block := [GwEvent.acquire requested ares,
          GwEvent.invoke actual (CallOutcome.failure errText)]
        if isRetryableError errText = false then
          (block ++ [GwEvent.release actual], Except.error
            ⟨errText, some "UNRETRYABLE", false⟩)
        else
          let isRate := strContains errText "429" || strContains errText "1302"
          let base : Nat := if isRate then 5 else 1
          let delay := pyMinNat (base * 2 ^ (ta - 1)) 30
          let fb : Option String :=
            if 2 ≤ ta ∧ allowFallback = true ∧ hasFallenBack = false then
              match getFallbackModel cfg requested with
              | some f => if f ≠ requested then some f else none
              | none => none
            else none
          match fb with
          | some f =>
            let rest := executeWithRetryAux cfg allowFallback calls acq
              fuel ta true f (some errText) k2 (kCall + 1)
            (block ++ [GwEvent.release actual] ++ rest.1, rest.2)
          | none =>
            if maxTotalAttempts ≤ ta then
              (block ++ [GwEvent.release actual], Except.error
                ⟨maxRetriesMsg ta (some errText), some "MAX_RETRIES_EXCEEDED",
                  false⟩)
            else
              let rest := executeWithRetryAux cfg allowFallback calls acq
                fuel ta hasFallenBack requested (some errText) k2 (kCall + 1)
              (block ++ [GwEvent.sleep delay, GwEvent.release actual] ++ rest.1,
                rest.2)

/-- Translation of `AIClient._execute_with_retry`. -/
def executeWithRetry (cfg : ModelsConfig) (allowFallback : Bool)
    (calls : Nat → CallOutcome ρ) (acq : AcqOracle) (model : String) :
    List (GwEvent ρ) × Except AIClientError ρ :=
  executeWithRetryAux cfg allowFallback calls acq maxTotalAttempts 0 false
    model none 0 0

/-- Decidable equality for `Except`, used to evaluate gateway results on
concrete fixtures. -/
instance {ε α : Type} [DecidableEq ε] [DecidableEq α] :
    DecidableEq (Except ε α) := fun x y =>
  match x, y with
  | Except.ok a, Except.ok b =>
    if h : a = b then isTrue (congrArg Except.ok h)
    else isFalse fun hc => h (Except.ok.inj hc)
  | Except.error a, Except.error b =>
    if h : a = b then isTrue (congrArg Except.error h)
    else isFalse fun hc => h (Except.error.inj hc)
  | Except.ok _, Except.error _ => isFalse fun hc => Except.noConfusion hc
  | Except.error _, Except.ok _ => isFalse fun hc => Except.noConfusion hc

/-- One row of the Usage Ledger, as written by `record_usage` from
`app/services/token_tracker.py` with the arguments `chat_completion` and
`vision_completion` pass it.  The derived bucket and cost columns are not
needed by any claim and are omitted. -/
structure LedgerRow where
  model : String
  prompt_tokens : Nat
  completion_tokens : Nat
  task_type : String
  task_description : Option String
  related_record_id : Option String
deriving DecidableEq, Repr

/-- The value stored in the `content` field of a gateway result: the raw
string, a parsed JSON value, or Python `None`. -/
inductive ContentVal (β : Type)
  | str (s : String)
  | json (v : β)
  | null
deriving DecidableEq, Repr

/-- Translation of `AIClient._extract_json`.  Here the library parser is
`parse : String → Option (Option β)`: the outer `none` is a decode error and
`some none` is a successfully parsed JSON `null`, so `safe_extract_json`
with the `None` fallback returns `none` exactly when Python's `result` is
`None`, and the function then falls back to the original content string. -/
def aiExtractJson (parse : String → Option (Option β)) (content : String) :
    ContentVal β :=
  if content == "" then ContentVal.null
  else
    match safe_extract_json parse content none with
    | some v => ContentVal.json v
    | none => ContentVal.str content

/-- The result dict of `chat_completion` / `vision_completion`. -/
structure ChatResult (β : Type) where
  content : ContentVal β
  model : String
  usage : Usage
deriving DecidableEq, Repr

/-- Translation of `AIClient.chat_completion`: resolve the default model,
run `_execute_with_retry`, write one ledger row when the final response has
a usage block (a failing write is swallowed, modelled by `ledgerOk`), run
the JSON post-processing when `json_response` is set, and return the
result dict.  The row's model is the function's own `model` variable — the
originally requested model — not the concrete model of the successful
attempt. -/
def chatCompletion (cfg : ModelsConfig) (hasClient : Bool)
    (parse : String → Option (Option β)) (requestedModel : Option String)
    (jsonResponse : Bool) (allowFallback : Bool) (taskType : String)
    (taskDescription : Option String) (recordId : Option String)
    (ledgerOk : Bool) (calls : Nat → CallOutcome AIResponse) (acq : AcqOracle) :
    List (GwEvent AIResponse) × List LedgerRow ×
      Except AIClientError (ChatResult β) :=
  if hasClient = false then
    ([], [], Except.error ⟨"AI 客户端未配置", some "NO_CLIENT", false⟩)
  else
    let model := requestedModel.getD cfg.text_flash
    let run := executeWithRetry cfg allowFallback calls acq model
    match run.2 with
    | Except.error e => (run.1, [], Except.error e)
    | Except.ok resp =>
      let content := resp.content.getD ""
      let rows :=
        match resp.usage with
        | some u =>
          if ledgerOk then
            [⟨model, u.prompt_tokens, u.completion_tokens, taskType,
              taskDescription, recordId⟩]
          else []
        | none => []
      let contentVal :=
        if jsonResponse then aiExtractJson parse content
        else ContentVal.str content
      (run.1, rows, Except.ok ⟨contentVal, model,
        match resp.usage with
        | some u => u
        | none => ⟨0, 0, 0⟩⟩)

/-! Event-trace structure of the retry loop. -/

/-- The upstream invocations of an event trace, with the concrete model each
one ran on. -/
def invocations (events : List (GwEvent ρ)) : List (String × CallOutcome ρ) :=
  events.filterMap fun e =>
    match e with
    | GwEvent.invoke m out => some (m, out)
    | _ => none

/-- Number of successful permit acquisitions of model `m` in a trace. -/
def acquiredCount (events : List (GwEvent ρ)) (m : String) : Nat :=
  events.countP fun e =>
    match e with
    | GwEvent.acquire _ r => r.acquired && (r.model == m)
    | _ => false

/-- Number of permit releases of model `m` in a trace. -/
def releasedCount (events : List (GwEvent ρ)) (m : String) : Nat :=
  events.countP fun e =>
    match e with
    | GwEvent.release m2 => m2 == m
    | _ => false

/-- Well-bracketed shape of a gateway trace: a sequence of attempt blocks,
each a successful acquire followed by an invocation on the acquired model
and a release of that same model (with an optional backoff sleep in
between, since the `finally` clause runs after the handler's sleep),
optionally ending in a single failed acquire that holds no permit. -/
inductive EventsOk : List (GwEvent ρ) → Prop
  | nil : EventsOk []
  | failedAcquire (req : String) (r : AcquireResult) (h : r.acquired = false) :
      EventsOk [GwEvent.acquire req r]
  | okBlock (req : String) (r : AcquireResult) (out : CallOutcome ρ)
      (rest : List (GwEvent ρ)) (h : r.acquired = true) (hrest : EventsOk rest) :
      EventsOk (GwEvent.acquire req r :: GwEvent.invoke r.model out ::
        GwEvent.release r.model :: rest)
  | okBlockSleep (req : String) (r : AcquireResult) (out : CallOutcome ρ)
      (d : Nat) (rest : List (GwEvent ρ)) (h : r.acquired = true)
      (hrest : EventsOk rest) :
      EventsOk (GwEvent.acquire req r :: GwEvent.invoke r.model out ::
        GwEvent.sleep d :: GwEvent.release r.model :: rest)

/-- Every trace of the retry loop is well bracketed: the invocation always
runs on the model whose permit was acquired, and that same model's permit is
released once per attempt on every exit path — success, non-retryable
error, fallback switch, budget exhaustion and backoff alike. -/
theorem executeWithRetryAux_eventsOk (cfg : ModelsConfig) (allowFallback : Bool)
    (calls : Nat → CallOutcome ρ) (acq : AcqOracle) :
    ∀ fuel totalAttempts hasFallenBack requested lastError kAcq kCall,
      EventsOk (executeWithRetryAux cfg allowFallback calls acq fuel
        totalAttempts hasFallenBack requested lastError kAcq kCall).1 := by
  intro fuel
  induction fuel with
  | zero => intro t h r l ka kc; exact EventsOk.nil
  | succ n ih =>
    intro t h r l ka kc
    rw [executeWithRetryAux]
    by_cases hA : (acquireWithUpgrade r 90 acq ka).1.acquired = false
    · simp only [hA, if_pos]
      exact EventsOk.failedAcquire _ _ hA
    · have hA2 : (acquireWithUpgrade r 90 acq ka).1.acquired = true := by
        revert hA
        cases (acquireWithUpgrade r 90 acq ka).1.acquired <;> simp
      simp only [hA, if_neg, if_false]
      cases hc : calls kc with
      | success resp =>
        simp only [hc]
        exact EventsOk.okBlock _ _ _ _ hA2 EventsOk.nil
      | failure errText =>
        simp only [hc]
        by_cases hr : isRetryableError errText = false
        · simp only [hr, if_pos]
          exact EventsOk.okBlock _ _ _ _ hA2 EventsOk.nil
        · simp only [hr, if_neg, if_false]
          rcases hfb : (if 2 ≤ t + 1 ∧ allowFallback = true ∧ h = false then
              match getFallbackModel cfg r with
              | some f => if f ≠ r then some f else none
              | none => none
            else none) with _ | f
          · simp only [hfb]
            by_cases hmax : maxTotalAttempts ≤ t + 1
            · simp only [hmax, if_pos]
              exact EventsOk.okBlock _ _ _ _ hA2 EventsOk.nil
            · simp only [hmax, if_neg, if_false]
              exact EventsOk.okBlockSleep _ _ _ _ _ hA2 (ih _ _ _ _ _ _)
          · simp only [hfb]
            exact EventsOk.okBlock _ _ _ _ hA2 (ih _ _ _ _ _ _)

/-- A well-bracketed trace acquires and releases each model's permits the
same number of times. -/
theorem EventsOk.balance {events : List (GwEvent ρ)} (h : EventsOk events)
    (m : String) : acquiredCount events m = releasedCount events m := by
  induction h with
  | nil => rfl
  | failedAcquire req r hr =>
    simp [acquiredCount, releasedCount, List.countP_cons, hr]
  | okBlock req r out rest hr hrest ih =>
    cases hm : r.model == m <;>
      simp [acquiredCount, releasedCount, List.countP_cons, hr, hm] at ih ⊢ <;>
      omega
  | okBlockSleep req r out d rest hr hrest ih =>
    cases hm : r.model == m <;>
      simp [acquiredCount, releasedCount, List.countP_cons, hr, hm] at ih ⊢ <;>
      omega

theorem executeWithRetryAux_invocations_le (cfg : ModelsConfig)
    (allowFallback : Bool) (calls : Nat → CallOutcome ρ) (acq : AcqOracle) :
    ∀ fuel totalAttempts hasFallenBack requested lastError kAcq kCall,
      (invocations (executeWithRetryAux cfg allowFallback calls acq fuel
        totalAttempts hasFallenBack requested lastError kAcq kCall).1).length ≤
        fuel := by
  intro fuel
  induction fuel with
  | zero => intro t h r l ka kc; simp [executeWithRetryAux, invocations]
  | succ n ih =>
    intro t h r l ka kc
    rw [executeWithRetryAux]
    by_cases hA : (acquireWithUpgrade r 90 acq ka).1.acquired = false
    · simp [hA, invocations]
    · simp only [hA, if_neg, if_false]
      cases hc : calls kc with
      | success resp => simp [invocations]
      | failure errText =>
        by_cases hr : isRetryableError errText = false
        · simp [hr, invocations]
        · simp only [hr, if_neg, if_false]
          rcases hfb : (if 2 ≤ t + 1 ∧ allowFallback = true ∧ h = false then
              match getFallbackModel cfg r with
              | some f => if f ≠ r then some f else none
              | none => none
            else none) with _ | f
          · simp only [hfb]
            by_cases hmax : maxTotalAttempts ≤ t + 1
            · simp [hmax, invocations]
            · simp only [hmax, if_neg, if_false]
              have := ih (t + 1) h r (some errText) (acquireWithUpgrade r 90 acq ka).2 (kc + 1)
              simp [invocations, List.filterMap_append] at this ⊢
              omega
          · simp only [hfb]
            have := ih (t + 1) true f (some errText) (acquireWithUpgrade r 90 acq ka).2 (kc + 1)
            simp [invocations, List.filterMap_append] at this ⊢
            omega

theorem mem_dropLast_cons {p a : α} {l : List α}
    (hp : p ∈ (a :: l).dropLast) : p = a ∨ p ∈ l.dropLast := by
  cases l with
  | nil => simp at hp
  | cons b t =>
    rw [List.dropLast_cons₂] at hp
    rcases List.mem_cons.mp hp with hh | hh
    · exact Or.inl hh
    · exact Or.inr hh

/-- Every invocation except possibly the last failed with a retryable error:
the loop re-invokes the upstream exactly after retryable failures. -/
theorem executeWithRetryAux_nonfinal_retryable (cfg : ModelsConfig)
    (allowFallback : Bool) (calls : Nat → CallOutcome ρ) (acq : AcqOracle) :
    ∀ fuel totalAttempts hasFallenBack requested lastError kAcq kCall p,
      p ∈ (invocations (executeWithRetryAux cfg allowFallback calls acq fuel
        totalAttempts hasFallenBack requested lastError kAcq kCall).1).dropLast →
      ∃ e, p.2 = CallOutcome.failure e ∧ isRetryableError e = true := by
  intro fuel
  induction fuel with
  | zero => intro t h r l ka kc p hp; simp [executeWithRetryAux, invocations] at hp
  | succ n ih =>
    intro t h r l ka kc p hp
    rw [executeWithRetryAux] at hp
    by_cases hA : (acquireWithUpgrade r 90 acq ka).1.acquired = false
    · simp [hA, invocations] at hp
    · simp only [hA, if_neg, if_false] at hp
      cases hc : calls kc with
      | success resp => simp [hc, invocations] at hp
      | failure errText =>
        simp only [hc] at hp
        by_cases hr : isRetryableError errText = false
        · simp [hr, invocations] at hp
        · have hr2 : isRetryableError errText = true := by
            revert hr; cases isRetryableError errText <;> simp
          simp only [hr, if_neg, if_false] at hp
          rcases hfb : (if 2 ≤ t + 1 ∧ allowFallback = true ∧ h = false then
              match getFallbackModel cfg r with
              | some f => if f ≠ r then some f else none
              | none => none
            else none) with _ | f
          · simp only [hfb] at hp
            by_cases hmax : maxTotalAttempts ≤ t + 1
            · simp [hmax, invocations] at hp
            · simp only [hmax, if_neg, if_false] at hp
              simp only [invocations, List.filterMap_append,
                List.filterMap_cons, List.filterMap_nil] at hp
              rcases mem_dropLast_cons hp with rfl | hp2
              · exact ⟨errText, rfl, hr2⟩
              · have := ih (t + 1) h r (some errText)
                  (acquireWithUpgrade r 90 acq ka).2 (kc + 1) p
                simp only [invocations] at this
                exact this hp2
          · simp only [hfb] at hp
            simp only [invocations, List.filterMap_append,
              List.filterMap_cons, List.filterMap_nil] at hp
            rcases mem_dropLast_cons hp with rfl | hp2
            · exact ⟨errText, rfl, hr2⟩
            · have := ih (t + 1) true f (some errText)
                (acquireWithUpgrade r 90 acq ka).2 (kc + 1) p
              simp only [invocations] at this
              exact this hp2

/-- A non-retryable failure is surfaced immediately as the `UNRETRYABLE`
error carrying the exception's text. -/
theorem executeWithRetryAux_unretryable (cfg : ModelsConfig)
    (allowFallback : Bool) (calls : Nat → CallOutcome ρ) (acq : AcqOracle) :
    ∀ fuel totalAttempts hasFallenBack requested lastError kAcq kCall m e,
      (m, CallOutcome.failure e) ∈ invocations (executeWithRetryAux cfg
        allowFallback calls acq fuel totalAttempts hasFallenBack requested
        lastError kAcq kCall).1 →
      isRetryableError e = false →
      (executeWithRetryAux cfg allowFallback calls acq fuel totalAttempts
        hasFallenBack requested lastError kAcq kCall).2 =
        Except.error ⟨e, some "UNRETRYABLE", false⟩ := by
  intro fuel
  induction fuel with
  | zero => intro t h r l ka kc m e hm hre; simp [executeWithRetryAux, invocations] at hm
  | succ n ih =>
    intro t h r l ka kc m e hm hre
    rw [executeWithRetryAux] at hm ⊢
    by_cases hA : (acquireWithUpgrade r 90 acq ka).1.acquired = false
    · simp [hA, invocations] at hm
    · simp only [hA, if_neg, if_false] at hm ⊢
      cases hc : calls kc with
      | success resp => simp [hc, invocations] at hm
      | failure errText =>
        simp only [hc] at hm ⊢
        by_cases hr : isRetryableError errText = false
        · simp only [hr, if_pos] at hm ⊢
          simp [invocations] at hm
          simp [hm.2]
        · have hr2 : isRetryableError errText = true := by
            revert hr; cases isRetryableError errText <;> simp
          simp only [hr, if_neg, if_false] at hm ⊢
          rcases hfb : (if 2 ≤ t + 1 ∧ allowFallback = true ∧ h = false then
              match getFallbackModel cfg r with
              | some f => if f ≠ r then some f else none
              | none => none
            else none) with _ | f
          · simp only [hfb] at hm ⊢
            by_cases hmax : maxTotalAttempts ≤ t + 1
            · simp only [hmax, if_pos] at hm ⊢
              simp [invocations] at hm
              rw [hm.2] at hre
              simp [hr2] at hre
            · simp only [hmax, if_neg, if_false] at hm ⊢
              simp only [invocations, List.filterMap_append,
                List.filterMap_cons, List.filterMap_nil] at hm
              rcases List.mem_cons.mp hm with hh | hh
              · have h2 := congrArg Prod.snd hh
                have he : e = errText := by injection h2
                rw [he] at hre
                simp [hr2] at hre
              · have := ih (t + 1) h r (some errText)
                  (acquireWithUpgrade r 90 acq ka).2 (kc + 1) m e
                simp only [invocations] at this
                exact this hh hre
          · simp only [hfb] at hm ⊢
            simp only [invocations, List.filterMap_append,
              List.filterMap_cons, List.filterMap_nil] at hm
            rcases List.mem_cons.mp hm with hh | hh
            · have h2 := congrArg Prod.snd hh
              have he : e = errText := by injection h2
              rw [he] at hre
              simp [hr2] at hre
            · have := ih (t + 1) true f (some errText)
                (acquireWithUpgrade r 90 acq ka).2 (kc + 1) m e
              simp only [invocations] at this
              exact this hh hre

/-! Concrete fixtures for the gateway claims, using the model roster of the
configuration defaults. -/

/-- The model roster resolved from the configuration defaults. -/
def demoCfg : ModelsConfig :=
  ⟨"glm-4.6v", "glm-4.6v-flash", "glm-4.7", "glm-4.7-flash", "glm-4.7",
   "embedding-3"⟩

/-- An oracle under which every timed acquire obtains its permit at once. -/
def allTrue : AcqOracle := fun _ => true

/-- An oracle whose very first 1-second try times out and whose later waits
succeed, forcing the upgrade path. -/
def demoUpgradeAcq : AcqOracle := fun n => n != 0

/-- Upstream succeeding at once with a usage block. -/
def demoOkCalls : Nat → CallOutcome AIResponse := fun _ =>
  CallOutcome.success ⟨some "hello", some ⟨100, 50, 150⟩⟩

/-- Upstream failing twice with HTTP 500 and then succeeding. -/
def demo500Calls : Nat → CallOutcome AIResponse := fun i =>
  if i ≤ 1 then CallOutcome.failure "Error code: 500 - internal server error"
  else CallOutcome.success ⟨some "ok", some ⟨10, 5, 15⟩⟩

/-- Upstream failing three times with HTTP 429 and then succeeding. -/
def demo429Calls : Nat → CallOutcome AIResponse := fun i =>
  if i ≤ 2 then CallOutcome.failure "Error code: 429 - rate limit exceeded"
  else CallOutcome.success ⟨some "ok", some ⟨10, 5, 15⟩⟩

/-- Upstream raising a non-retryable error on every invocation. -/
def demoBadKeyCalls : Nat → CallOutcome AIResponse := fun _ =>
  CallOutcome.failure "Invalid API key"

/-- Upstream succeeding with empty content and no usage block. -/
def demoEmptyCalls : Nat → CallOutcome AIResponse := fun _ =>
  CallOutcome.success ⟨some "", none⟩

/-- A library parser that rejects everything, standing for a model output
the JSON repair module cannot parse. -/
def demoNoParse : String → Option (Option Nat) := fun _ => none

/-- C2: the gateway first tries the requested model's semaphore with a
1-second timeout; on timeout, when the upgrade map has an entry it tries the
upgrade target with a 90-second timeout; on further failure it waits on the
original model with a 90-second timeout; the returned model is the one whose
permit was acquired, every invocation runs on that model, and that model's
permit is released on every exit path of the attempt, exceptions included
(the well-bracketing of every trace and the acquire/release balance). -/
theorem C2_acquire_upgrade_release :
    (∀ (model : String) (o : AcqOracle) (k : Nat),
      (o k = true →
        acquireWithUpgrade model 90 o k =
          (⟨true, model, [(model, 1, true)]⟩, k + 1)) ∧
      (o k = false →
        (∀ u, upgradeMap (pyLower model) = some u →
          (o (k + 1) = true →
            acquireWithUpgrade model 90 o k =
              (⟨true, u, [(model, 1, false), (u, 90, true)]⟩, k + 2)) ∧
          (o (k + 1) = false →
            acquireWithUpgrade model 90 o k =
              (⟨o (k + 2), model,
                [(model, 1, false), (u, 90, false), (model, 90, o (k + 2))]⟩,
                k + 3))) ∧
        (upgradeMap (pyLower model) = none →
          acquireWithUpgrade model 90 o k =
            (⟨o (k + 1), model,
              [(model, 1, false), (model, 90, o (k + 1))]⟩, k + 2)))) ∧
    (∀ (cfg : ModelsConfig) (allowFallback : Bool)
        (calls : Nat → CallOutcome AIResponse) (acq : AcqOracle)
        (model : String),
      EventsOk (executeWithRetry cfg allowFallback calls acq model).1 ∧
      ∀ m, acquiredCount (executeWithRetry cfg allowFallback calls acq
          model).1 m =
        releasedCount (executeWithRetry cfg allowFallback calls acq
          model).1 m) := by
  constructor
  · intro model o k
    refine ⟨?_, ?_⟩
    · intro h1
      unfold acquireWithUpgrade
      simp [h1]
    · intro h1
      refine ⟨?_, ?_⟩
      · intro u hu
        refine ⟨?_, ?_⟩
        · intro h2
          unfold acquireWithUpgrade
          simp [h1, hu, h2]
        · intro h2
          unfold acquireWithUpgrade
          simp [h1, hu, h2]
      · intro hu
        unfold acquireWithUpgrade
        simp [h1, hu]
  · intro cfg aF calls acq model
    have h := executeWithRetryAux_eventsOk cfg aF calls acq maxTotalAttempts
      0 false model none 0 0
    exact ⟨h, fun m => h.balance m⟩

/-- Witness for C2 at a concrete input: the flash text model is saturated
for one second, and the permit is obtained on its premium upgrade. -/
theorem C2_witness :
    demoUpgradeAcq 0 = false ∧
    acquireWithUpgrade "glm-4.7-flash" 90 demoUpgradeAcq 0 =
      (⟨true, "glm-4.7",
        [("glm-4.7-flash", 1, false), ("glm-4.7", 90, true)]⟩, 2) :=
  ⟨rfl, (((C2_acquire_upgrade_release.1 "glm-4.7-flash" demoUpgradeAcq 0).2
    rfl).1 "glm-4.7" (by decide)).1 rfl⟩

/-- C3 counterexample: with the premium text model, fallback allowed, and
two retryable 500 failures, the gateway performs three invocations but only
one backoff sleep — the retry that immediately follows the fallback switch
to the flash model happens with no delay, contradicting the claim that the
backoff before retry n is min(base · 2^(n−1), 30 s) for every retry. -/
theorem C3_counterexample :
    (invocations (executeWithRetry demoCfg true demo500Calls allTrue
      "glm-4.7").1).length = 3 ∧
    ((executeWithRetry demoCfg true demo500Calls allTrue "glm-4.7").1.countP
      fun e =>
        match e with
        | GwEvent.sleep _ => true
        | _ => false) = 1 ∧
    (executeWithRetry demoCfg true demo500Calls allTrue "glm-4.7").2 =
      Except.ok ⟨some "ok", some ⟨10, 5, 15⟩⟩ := by
  decide

/-- C3 (amended): a failed attempt is retried exactly when its textual form
contains one of 429, 1302, 500, 502, 503, 504 — every non-final invocation
is a retryable failure, and a non-retryable failure surfaces immediately as
the UNRETRYABLE error; no logical call performs more than five upstream
invocations; the backoff before retry n is min(base · 2^(n−1), 30 s) with
base 5 s for 429/1302 and 1 s otherwise, except that the retry immediately
following a fallback switch proceeds with no delay; the final conjunct runs
an upstream 429 storm and observes the delays 5 s, 10 s, 20 s across four
invocations. -/
theorem C3_retry_policy :
    (∀ (cfg : ModelsConfig) (allowFallback : Bool)
        (calls : Nat → CallOutcome AIResponse) (acq : AcqOracle)
        (model : String),
      (invocations (executeWithRetry cfg allowFallback calls acq
        model).1).length ≤ 5) ∧
    (∀ (cfg : ModelsConfig) (allowFallback : Bool)
        (calls : Nat → CallOutcome AIResponse) (acq : AcqOracle)
        (model : String) p,
      p ∈ (invocations (executeWithRetry cfg allowFallback calls acq
        model).1).dropLast →
      ∃ e, p.2 = CallOutcome.failure e ∧ isRetryableError e = true) ∧
    (∀ (cfg : ModelsConfig) (allowFallback : Bool)
        (calls : Nat → CallOutcome AIResponse) (acq : AcqOracle)
        (model m e : String),
      (m, CallOutcome.failure e) ∈
        invocations (executeWithRetry cfg allowFallback calls acq model).1 →
      isRetryableError e = false →
      (executeWithRetry cfg allowFallback calls acq model).2 =
        Except.error ⟨e, some "UNRETRYABLE", false⟩) ∧
    ((executeWithRetry demoCfg true demo429Calls allTrue
        "glm-4.7-flash").1.filterMap (fun e =>
        match e with
        | GwEvent.sleep d => some d
        | _ => none) = [5, 10, 20] ∧
      (invocations (executeWithRetry demoCfg true demo429Calls allTrue
        "glm-4.7-flash").1).length = 4) := by
  refine ⟨?_, ?_, ?_, by decide⟩
  · intro cfg aF calls acq model
    exact le_trans (executeWithRetryAux_invocations_le cfg aF calls acq
      maxTotalAttempts 0 false model none 0 0) (by decide)
  · intro cfg aF calls acq model p hp
    exact executeWithRetryAux_nonfinal_retryable cfg aF calls acq
      maxTotalAttempts 0 false model none 0 0 p hp
  · intro cfg aF calls acq model m e hm hre
    exact executeWithRetryAux_unretryable cfg aF calls acq
      maxTotalAttempts 0 false model none 0 0 m e hm hre

/-- Witness for C3 at a concrete input: an invalid-API-key failure is
non-retryable and surfaces as the UNRETRYABLE error. -/
theorem C3_witness :
    (executeWithRetry demoCfg true demoBadKeyCalls allTrue
      "glm-4.7-flash").2 =
      Except.error ⟨"Invalid API key", some "UNRETRYABLE", false⟩ :=
  C3_retry_policy.2.2.1 demoCfg true demoBadKeyCalls allTrue "glm-4.7-flash"
    "glm-4.7-flash" "Invalid API key" (by decide) (by decide)

/-- C1 counterexample: the requested flash text model is saturated for one
second, so the attempt runs on the premium upgrade, and the upstream returns
a usage block; the single Usage Ledger row is keyed by the requested model
"glm-4.7-flash", not the concrete model "glm-4.7" the attempt actually ran
on, so the claim that the row records the concrete model is false at this
input. -/
theorem C1_counterexample :
    ((chatCompletion demoCfg true demoNoParse none false true "chat" none none
      true demoOkCalls demoUpgradeAcq).2.1.map (fun row => row.model)) =
        ["glm-4.7-flash"] ∧
    (invocations (chatCompletion demoCfg true demoNoParse none false true
      "chat" none none true demoOkCalls demoUpgradeAcq).1).map Prod.fst =
        ["glm-4.7"] ∧
    ("glm-4.7-flash" : String) ≠ "glm-4.7" := by
  decide

/-- C1 (amended): per completed gateway chat call, at most one Usage Ledger
row is written — exactly one when the final response carries a usage block
and the ledger write does not itself fail — and the row records the task
tag, the optional record id, and the originally requested model (defaulting
to the flash text model), not the concrete model actually used for the
attempt; no row is written when the call fails. -/
theorem C1_usage_ledger (cfg : ModelsConfig) (hasClient : Bool)
    (parse : String → Option (Option β)) (requestedModel : Option String)
    (jsonResponse allowFallback : Bool) (taskType : String)
    (taskDescription recordId : Option String) (ledgerOk : Bool)
    (calls : Nat → CallOutcome AIResponse) (acq : AcqOracle) :
    (∀ row ∈ (chatCompletion cfg hasClient parse requestedModel jsonResponse
        allowFallback taskType taskDescription recordId ledgerOk calls
        acq).2.1,
      row.model = requestedModel.getD cfg.text_flash ∧
      row.task_type = taskType ∧ row.task_description = taskDescription ∧
      row.related_record_id = recordId) ∧
    (chatCompletion cfg hasClient parse requestedModel jsonResponse
      allowFallback taskType taskDescription recordId ledgerOk calls
      acq).2.1.length ≤ 1 ∧
    (∀ e, (chatCompletion cfg hasClient parse requestedModel jsonResponse
        allowFallback taskType taskDescription recordId ledgerOk calls
        acq).2.2 = Except.error e →
      (chatCompletion cfg hasClient parse requestedModel jsonResponse
        allowFallback taskType taskDescription recordId ledgerOk calls
        acq).2.1 = []) ∧
    (∀ resp, hasClient = true → ledgerOk = true →
      (executeWithRetry cfg allowFallback calls acq
        (requestedModel.getD cfg.text_flash)).2 = Except.ok resp →
      resp.usage.isSome = true →
      (chatCompletion cfg hasClient parse requestedModel jsonResponse
        allowFallback taskType taskDescription recordId ledgerOk calls
        acq).2.1.length = 1) := by
  unfold chatCompletion
  by_cases hc : hasClient = false
  · simp only [hc, if_pos]
    refine ⟨by simp, by simp, by simp, ?_⟩
    intro resp h1
    exact Bool.noConfusion h1
  · simp only [hc, if_neg, if_false]
    rcases hr2 : (executeWithRetry cfg allowFallback calls acq
        (requestedModel.getD cfg.text_flash)).2 with e | resp
    · simp only [hr2]
      refine ⟨by simp, by simp, by simp, ?_⟩
      intro resp2 _ _ hok
      exact Except.noConfusion hok
    · simp only [hr2]
      rcases hu : resp.usage with _ | u
      · simp only [hu]
        refine ⟨by simp, by simp, by simp, ?_⟩
        intro resp2 _ _ hok husage
        injection hok with hh
        rw [← hh, hu] at husage
        simp at husage
      · simp only [hu]
        by_cases hl : ledgerOk = true
        · simp only [hl, if_pos]
          refine ⟨?_, by simp, by simp, ?_⟩
          · intro row hrow
            rcases List.mem_singleton.mp hrow with rfl
            exact ⟨rfl, rfl, rfl, rfl⟩
          · intro resp2 _ _ _ _
            simp
        · have hl2 : ledgerOk = false := by
            revert hl; cases ledgerOk <;> simp
          simp only [hl2, Bool.false_eq_true, if_false]
          refine ⟨by simp, by simp, by simp, ?_⟩
          intro resp2 _ hlt
          exact absurd hlt (by simp)

/-- Helper for C10: when the repair module fails on a nonempty content
string, `_extract_json` returns that original string. -/
theorem aiExtractJson_of_error (parse : String → Option (Option β))
    (content msg : String) (hne : content ≠ "")
    (hfail : extract_json parse content = Except.error msg) :
    aiExtractJson parse content = ContentVal.str content := by
  unfold aiExtractJson safe_extract_json
  rw [hfail]
  simp [beq_eq_false_iff_ne.mpr hne]

/-- C10 counterexample: with the upstream yielding empty content and JSON
mode on, the repair module cannot parse the output (it errors on empty
input), yet the gateway result's content field is Python None, not the
original raw string: the claim that the raw content string comes back
unchanged fails at the empty output. -/
theorem C10_counterexample :
    extract_json demoNoParse "" = Except.error "AI 返回内容为空" ∧
    (chatCompletion demoCfg true demoNoParse none true true "chat" none none
      true demoEmptyCalls allTrue).2.2 =
      Except.ok ⟨ContentVal.null, "glm-4.7-flash", ⟨0, 0, 0⟩⟩ ∧
    (ContentVal.null : ContentVal Nat) ≠ ContentVal.str "" := by
  decide

/-- C10 (amended): when a JSON-mode gateway call completes and the repair
module cannot parse the nonempty model output, the call still succeeds with
the original raw content string unchanged in the result's content field — no
error is raised and no fallback object substituted; an empty model output
instead yields content None. -/
theorem C10_unparsed_passthrough (parse : String → Option (Option β)) :
    (∀ content msg, content ≠ "" →
      extract_json parse content = Except.error msg →
      aiExtractJson parse content = ContentVal.str content) ∧
    (∀ (cfg : ModelsConfig) (requestedModel : Option String)
        (allowFallback : Bool) (taskType : String)
        (taskDescription recordId : Option String) (ledgerOk : Bool)
        (calls : Nat → CallOutcome AIResponse) (acq : AcqOracle) resp msg,
      (executeWithRetry cfg allowFallback calls acq
        (requestedModel.getD cfg.text_flash)).2 = Except.ok resp →
      resp.content.getD "" ≠ "" →
      extract_json parse (resp.content.getD "") = Except.error msg →
      ∃ result, (chatCompletion cfg true parse requestedModel true
          allowFallback taskType taskDescription recordId ledgerOk calls
          acq).2.2 = Except.ok result ∧
        result.content = ContentVal.str (resp.content.getD "")) := by
  refine ⟨aiExtractJson_of_error parse, ?_⟩
  intro cfg rm aF tt td rid lok calls acq resp msg hok hne hfail
  unfold chatCompletion
  simp only [hok, Bool.true_eq_false, if_false]
  exact ⟨_, rfl, aiExtractJson_of_error parse _ msg hne hfail⟩

/-- Witness for C10 at a concrete input: unparseable nonempty content comes
back as itself. -/
theorem C10_witness :
    ("hello" : String) ≠ "" ∧
    extract_json demoNoParse "hello" =
      Except.error ("AI 返回内容无法解析为 JSON: " ++ "hello") ∧
    aiExtractJson demoNoParse "hello" = ContentVal.str "hello" :=
  ⟨by decide, by decide,
    (C10_unparsed_passthrough demoNoParse).1 "hello"
      ("AI 返回内容无法解析为 JSON: " ++ "hello") (by decide) (by decide)⟩

/-! ## Tagger and ingestion commit, from `app/services/tagger.py`,
`app/services/data_extractor.py` and `app/routers/feed.py` -/

/-- Python's `str.upper` (ASCII). -/
def pyUpper (s : String) : String := String.mk (s.data.map Char.toUpper)

/-- The nine-valued category enum; its enum values equal the member names,
so `Category(x)` succeeds exactly when `x` is one of these strings. -/
def validCategories : List String :=
  ["SLEEP", "DIET", "ACTIVITY", "MOOD", "SOCIAL", "WORK", "GROWTH",
   "LEISURE", "SCREEN"]

/-- Python's `Category(s.upper()).value` wrapped in try/except: the
upper-cased string when it is a member, else nothing. -/
def parseCategory (s : String) : Option String :=
  if validCategories.contains (pyUpper s) then some (pyUpper s) else none

/-- Full match against the claim's tag shape `#[^/]+/[^/]+`: a hash, a
nonempty slash-free segment, a slash, a nonempty slash-free segment. -/
def tagWellFormed (tag : String) : Bool :=
  match tag.data with
  | '#' :: rest =>
    let a := rest.takeWhile (fun c => c != '/')
    match rest.dropWhile (fun c => c != '/') with
    | '/' :: b => (!a.isEmpty) && (!b.isEmpty) && (!b.contains '/')
    | _ => false
  | _ => false

/-- The `_get_time_period` slot table of the tagger. -/
def timePeriod (hour : Nat) : String :=
  if 5 ≤ hour ∧ hour < 9 then "早晨"
  else if 9 ≤ hour ∧ hour < 12 then "上午"
  else if 12 ≤ hour ∧ hour < 14 then "中午"
  else if 14 ≤ hour ∧ hour < 17 then "下午"
  else if 17 ≤ hour ∧ hour < 19 then "傍晚"
  else if 19 ≤ hour ∧ hour < 22 then "晚间"
  else if 22 ≤ hour ∧ hour < 24 then "深夜"
  else "凌晨"

/-- The `category_map` of `_rule_based_tags`. -/
def categoryTagMap (category : String) : Option String :=
  if category == "SLEEP" then some "#身体/睡眠"
  else if category == "DIET" then some "#饮食/进食"
  else if category == "ACTIVITY" then some "#身体/运动"
  else if category == "MOOD" then some "#心情/记录"
  else if category == "SOCIAL" then some "#社交/互动"
  else if category == "WORK" then some "#工作/任务"
  else if category == "GROWTH" then some "#成长/学习"
  else if category == "LEISURE" then some "#休闲/娱乐"
  else if category == "SCREEN" then some "#数字/屏幕"
  else none

/-- The `keywords` table of `_rule_based_tags`, in dict insertion order. -/
def keywordTagPairs : List (String × String) :=
  [("咖啡", "#饮食/咖啡"), ("跑步", "#身体/跑步"), ("健身", "#身体/健身"),
   ("书", "#休闲/阅读"), ("电影", "#休闲/电影"), ("游戏", "#休闲/游戏"),
   ("开心", "#心情/开心"), ("累", "#身体/疲劳"), ("会议", "#工作/会议"),
   ("学习", "#成长/学习")]

/-- Translation of `TaggerAgent._rule_based_tags`: a time tag, the category
tag when the category is known, keyword-matched tags from the text, at most
six in total. -/
def ruleBasedTags (text : Option String) (category : Option String)
    (hour : Nat) : List String :=
  let tags := ["#时间/" ++ timePeriod hour]
  let tags :=
    match category with
    | some c =>
      match categoryTagMap c with
      | some t => tags ++ [t]
      | none => tags
    | none => tags
  let tags :=
    match text with
    | some tx =>
      keywordTagPairs.foldl
        (fun (acc : List String) (kv : String × String) =>
          if strContains tx kv.1 && !(acc.contains kv.2) then acc ++ [kv.2]
          else acc)
        tags
    | none => tags
  tags.take 6

/-- What the AI leg of `generate_tags` can produce: the gateway call raised
(inner handler → rules fallback), the parsed content was a dict (its `tags`
key, defaulting to the empty list), a list (returned verbatim), or anything
else (rules fallback). -/
inductive TagAIOutcome
  | err
  | dict (tags : List String)
  | listContent (tags : List String)
  | otherContent
deriving DecidableEq, Repr

/-- Translation of `TaggerAgent._ai_generate_tags`' result handling. -/
def aiGenerateTags (outcome : TagAIOutcome) (ruleTags : List String) :
    List String :=
  match outcome with
  | TagAIOutcome.err => ruleTags
  | TagAIOutcome.dict tags => tags
  | TagAIOutcome.listContent tags => tags
  | TagAIOutcome.otherContent => ruleTags

/-- Translation of `TaggerAgent.generate_tags` as called by the feed router
(no recommendation pass): the AI leg's tags — whatever strings the model
returned, with no shape validation — truncated to eight.  The outer
exception handler also returns `_rule_based_tags`, which the `err` outcome
already covers. -/
def generate_tags (outcome : TagAIOutcome) (text : Option String)
    (category : Option String) (hour : Nat) : List String :=
  (aiGenerateTags outcome (ruleBasedTags text category hour)).take 8

/-- Python's `min` on integers. -/
def pyMinI (a b : Int) : Int := if a ≤ b then a else b

/-- Python's `max` on integers. -/
def pyMaxI (a b : Int) : Int := if a ≤ b then b else a

/-- Translation of the `dimension_scores` cleaning block of
`DataExtractor._call_ai`: keep only the eight valid keys, clamp each value
with `max(0, min(100, int(v)))`, and discard the whole block when fewer
than four valid dims remain (an absent or empty dict is likewise
discarded). -/
def cleanDimensionScores (raw : Option (List (String × Int))) :
    Option (List (String × Nat)) :=
  match raw with
  | none => none
  | some kvs =>
    let validDims : List String :=
      ["body", "mood", "social", "work", "growth", "meaning", "digital",
       "leisure"]
    let cleaned := kvs.filterMap fun kv =>
      if validDims.contains kv.1 then
        some (kv.1, (pyMaxI 0 (pyMinI 100 kv.2)).toNat)
      else none
    if cleaned.length < 4 then none else some cleaned

/-- The default category that `DataExtractor.extract` routes to `_call_ai`
for each image type (the `category_map` of `_extract_general` for the
photo-ish kinds, the per-prompt literals otherwise, MOOD for pure text). -/
def extractDefaultCategory (imageType : String) (hasImage : Bool) : String :=
  if hasImage = false then "MOOD"
  else if imageType == "screenshot" then "SCREEN"
  else if imageType == "activity_screenshot" then "ACTIVITY"
  else if imageType == "food" then "DIET"
  else if imageType == "sleep_screenshot" then "SLEEP"
  else if imageType == "activity_photo" then "ACTIVITY"
  else "MOOD"

/-- The parts of a `_call_ai` result that the commit invariants depend on:
the resolved category and the cleaned dimension scores. -/
structure ExtractSuccess where
  category : String
  dimension_scores : Option (List (String × Nat))
deriving DecidableEq, Repr

/-- Translation of the category resolution and score cleaning of
`DataExtractor._call_ai`: the model's category wins when it upper-cases to
a member of the enum, else the routed default stands. -/
def callAI (defaultCategory : String) (aiCategory : Option String)
    (aiDims : Option (List (String × Int))) : ExtractSuccess :=
  let category :=
    match aiCategory with
    | some c =>
      if validCategories.contains (pyUpper c) then pyUpper c
      else defaultCategory
    | none => defaultCategory
  ⟨category, cleanDimensionScores aiDims⟩

/-- The dimension scores committed on a record: the extractor's cleaned
block, the rules scorer's output, or the empty dict after a scorer
exception. -/
inductive CommittedDims
  | llm (kvs : List (String × Nat))
  | rules (s : DimScores)
  | empty
deriving DecidableEq, Repr

/-- The fields of the committed LifeRecord that the claim constrains. -/
structure CommittedRecord where
  category : String
  dims : CommittedDims
  tags : List String
deriving DecidableEq, Repr

/-- The category that `create_feed` commits: phase 2 either yields a
`_call_ai` result (with one automatic retry collapsed into the single
abstracted outcome) or degrades to the hint → classifier-suggestion → MOOD
chain, where an invalid hint does not fall through to the suggestion
(`elif` in the source). -/
def resolveCategory (imageType : String) (hasImage : Bool)
    (aiOutcome : Option (Option String × Option (List (String × Int))))
    (categoryHint classifierSuggestion : Option String) : String :=
  match aiOutcome with
  | some p =>
    (callAI (extractDefaultCategory imageType hasImage) p.1 p.2).category
  | none =>
    match categoryHint with
    | some h => (parseCategory h).getD "MOOD"
    | none =>
      match classifierSuggestion with
      | some s => (parseCategory s).getD "MOOD"
      | none => "MOOD"

/-- Phase 4 of `create_feed`: the tagger output, or the empty list when both
tagger attempts raised. -/
def committedTags (tagsOutcome : Option TagAIOutcome) (text : Option String)
    (category : String) (nowHour : Nat) : List String :=
  match tagsOutcome with
  | some o => generate_tags o text (some category) nowHour
  | none => []

/-- Phase 5 of `create_feed`: prefer the extractor's cleaned scores, fall
back to the rules scorer, and store the empty dict when the scorer
raises. -/
def committedDims (extractDims : Option (List (String × Nat)))
    (category : String) (meta : Option AnalyzerMeta) (tags : List String)
    (rulesOk : Bool) (nowHour : Nat) : CommittedDims :=
  match extractDims with
  | some kvs => CommittedDims.llm kvs
  | none =>
    if rulesOk then
      CommittedDims.rules (calculateDimensionScores category meta tags nowHour)
    else CommittedDims.empty

/-- The category, dimension-score and tag fields of the LifeRecord that
`create_feed` commits, assembled from the phase results above. -/
def createFeedRecord (imageType : String) (hasImage : Bool)
    (aiOutcome : Option (Option String × Option (List (String × Int))))
    (categoryHint classifierSuggestion : Option String)
    (tagsOutcome : Option TagAIOutcome) (text : Option String)
    (meta : Option AnalyzerMeta) (rulesOk : Bool) (nowHour : Nat) :
    CommittedRecord :=
  let category := resolveCategory imageType hasImage aiOutcome categoryHint
    classifierSuggestion
  let tags := committedTags tagsOutcome text category nowHour
  let extractDims :=
    match aiOutcome with
    | some p =>
      (callAI (extractDefaultCategory imageType hasImage) p.1
        p.2).dimension_scores
    | none => none
  ⟨category, committedDims extractDims category meta tags rulesOk nowHour,
    tags⟩

theorem extractDefaultCategory_valid (imageType : String) (hasImage : Bool) :
    extractDefaultCategory imageType hasImage ∈ validCategories := by
  unfold extractDefaultCategory
  split_ifs <;> decide

theorem callAI_category_valid (defaultCategory : String)
    (aiCategory : Option String) (aiDims : Option (List (String × Int)))
    (hd : defaultCategory ∈ validCategories) :
    (callAI defaultCategory aiCategory aiDims).category ∈ validCategories := by
  unfold callAI
  cases aiCategory with
  | none => exact hd
  | some c =>
    by_cases hc : validCategories.contains (pyUpper c) = true
    · simp only [hc, if_pos]
      simpa using hc
    · simp only [hc, if_neg, if_false]
      exact hd

theorem parseCategory_valid (s c : String) (h : parseCategory s = some c) :
    c ∈ validCategories := by
  unfold parseCategory at h
  by_cases hc : validCategories.contains (pyUpper s) = true
  · rw [if_pos hc] at h
    injection h with h2
    rw [← h2]
    simpa using hc
  · rw [if_neg hc] at h
    cases h

theorem generate_tags_length (outcome : TagAIOutcome) (text : Option String)
    (category : Option String) (hour : Nat) :
    (generate_tags outcome text category hour).length ≤ 8 := by
  unfold generate_tags
  exact List.length_take_le 8 _

theorem clampInt_le (v : Int) : (pyMaxI 0 (pyMinI 100 v)).toNat ≤ 100 := by
  unfold pyMaxI pyMinI
  split_ifs <;> omega

theorem cleanDimensionScores_range (raw : Option (List (String × Int)))
    (kvs : List (String × Nat)) (h : cleanDimensionScores raw = some kvs) :
    ∀ kv ∈ kvs, kv.2 ≤ 100 := by
  intro kv hkv
  unfold cleanDimensionScores at h
  cases raw with
  | none => cases h
  | some l =>
    simp only at h
    split at h
    · cases h
    · injection h with h2
      rw [← h2] at hkv
      rcases List.mem_filterMap.mp hkv with ⟨kv0, _, hf⟩
      by_cases hv : (["body", "mood", "social", "work", "growth", "meaning",
          "digital", "leisure"] : List String).contains kv0.1 = true
      · rw [if_pos hv] at hf
        injection hf with hf2
        rw [← hf2]
        exact clampInt_le kv0.2
      · rw [if_neg hv] at hf
        cases hf

theorem timeTag_wellFormed (hour : Nat) :
    tagWellFormed ("#时间/" ++ timePeriod hour) = true := by
  unfold timePeriod
  split_ifs <;> decide

theorem categoryTagMap_wellFormed (c t : String) (h : categoryTagMap c = some t) :
    tagWellFormed t = true := by
  unfold categoryTagMap at h
  split_ifs at h <;> (injection h with h2; rw [← h2]; decide)

theorem keyword_fold_wellFormed (tx : String) (l : List (String × String))
    (hl : ∀ kv ∈ l, tagWellFormed kv.2 = true) :
    ∀ acc, (∀ x ∈ acc, tagWellFormed x = true) →
      ∀ x ∈ l.foldl
        (fun (acc : List String) (kv : String × String) =>
          if strContains tx kv.1 && !(acc.contains kv.2) then acc ++ [kv.2]
          else acc) acc,
        tagWellFormed x = true := by
  induction l with
  | nil => intro acc hacc x hx; exact hacc x hx
  | cons kv t ih =>
    intro acc hacc x hx
    simp only [List.foldl_cons] at hx
    refine ih (fun kv2 h2 => hl kv2 (List.mem_cons_of_mem kv h2)) _ ?_ x hx
    intro y hy
    by_cases hcond : (strContains tx kv.1 && !(acc.contains kv.2)) = true
    · rw [if_pos hcond] at hy
      rcases List.mem_append.mp hy with hy2 | hy2
      · exact hacc y hy2
      · rcases List.mem_singleton.mp hy2 with rfl
        exact hl kv (List.mem_cons_self kv t)
    · rw [if_neg hcond] at hy
      exact hacc y hy

/-- Every rules-fallback tag matches the claimed `#seg/seg` shape. -/
theorem ruleBasedTags_wellFormed (text : Option String)
    (category : Option String) (hour : Nat) :
    ∀ t ∈ ruleBasedTags text category hour, tagWellFormed t = true := by
  intro t ht
  unfold ruleBasedTags at ht
  have ht2 := (List.take_sublist 6 _).subset ht
  have base : ∀ x ∈ (["#时间/" ++ timePeriod hour] : List String),
      tagWellFormed x = true := by
    intro x hx
    rcases List.mem_singleton.mp hx with rfl
    exact timeTag_wellFormed hour
  have withCat : ∀ x ∈ (match category with
      | some c =>
        match categoryTagMap c with
        | some tg => ["#时间/" ++ timePeriod hour] ++ [tg]
        | none => ["#时间/" ++ timePeriod hour]
      | none => ["#时间/" ++ timePeriod hour] : List String),
      tagWellFormed x = true := by
    intro x hx
    cases category with
    | none => exact base x hx
    | some c =>
      cases hmap : categoryTagMap c with
      | none =>
        simp only [hmap] at hx
        exact base x hx
      | some tg =>
        simp only [hmap] at hx
        rcases List.mem_append.mp hx with hx2 | hx2
        · exact base x hx2
        · rcases List.mem_singleton.mp hx2 with rfl
          exact categoryTagMap_wellFormed c x hmap
  cases text with
  | none => exact withCat t ht2
  | some tx =>
    refine keyword_fold_wellFormed tx keywordTagPairs (by decide) _ withCat t ht2

/-- C4 counterexample: the tagger commits whatever strings the model
returned, with no shape validation — a committed record can carry a tag
without the `#seg/seg` shape, so the claim's tag-shape conjunct is false. -/
theorem C4_counterexample :
    (createFeedRecord "other" false (some (some "MOOD", none)) none none
      (some (TagAIOutcome.listContent ["随便一个标签"])) none none false
      10).tags = ["随便一个标签"] ∧
    tagWellFormed "随便一个标签" = false := by
  decide

/-- C4 (amended): every LifeRecord committed by the ingestion pipeline has
a category in the nine-valued enum, at most eight tags, and every committed
dimension score in the 0..100 band (whether the extractor's cleaned block,
the rules scorer's output, or the empty fallback); the `#seg/seg` tag shape
holds for the rules-fallback tags but is not enforced on AI-returned
tags. -/
theorem resolveCategory_valid (imageType : String) (hasImage : Bool)
    (aiOutcome : Option (Option String × Option (List (String × Int))))
    (categoryHint classifierSuggestion : Option String) :
    resolveCategory imageType hasImage aiOutcome categoryHint
      classifierSuggestion ∈ validCategories := by
  cases aiOutcome with
  | some p =>
    exact callAI_category_valid _ _ _
      (extractDefaultCategory_valid imageType hasImage)
  | none =>
    cases categoryHint with
    | some h =>
      show (parseCategory h).getD "MOOD" ∈ validCategories
      cases hp : parseCategory h with
      | some c => exact parseCategory_valid h c hp
      | none => decide
    | none =>
      cases classifierSuggestion with
      | some s =>
        show (parseCategory s).getD "MOOD" ∈ validCategories
        cases hp : parseCategory s with
        | some c => exact parseCategory_valid s c hp
        | none => decide
      | none =>
        show ("MOOD" : String) ∈ validCategories
        decide

theorem committedTags_length (tagsOutcome : Option TagAIOutcome)
    (text : Option String) (category : String) (nowHour : Nat) :
    (committedTags tagsOutcome text category nowHour).length ≤ 8 := by
  unfold committedTags
  cases tagsOutcome with
  | some o => exact generate_tags_length o _ _ _
  | none => simp

theorem committedDims_llm (extractDims : Option (List (String × Nat)))
    (category : String) (meta : Option AnalyzerMeta) (tags : List String)
    (rulesOk : Bool) (nowHour : Nat) (kvs : List (String × Nat))
    (h : committedDims extractDims category meta tags rulesOk nowHour =
      CommittedDims.llm kvs) :
    extractDims = some kvs := by
  cases extractDims with
  | some l =>
    simp only [committedDims] at h
    injection h with h2
    rw [h2]
  | none => cases rulesOk <;> simp [committedDims] at h

theorem committedDims_rules (extractDims : Option (List (String × Nat)))
    (category : String) (meta : Option AnalyzerMeta) (tags : List String)
    (rulesOk : Bool) (nowHour : Nat) (s : DimScores)
    (h : committedDims extractDims category meta tags rulesOk nowHour =
      CommittedDims.rules s) :
    s = calculateDimensionScores category meta tags nowHour := by
  cases extractDims with
  | some l => simp [committedDims] at h
  | none =>
    cases rulesOk with
    | true =>
      simp only [committedDims] at h
      rw [if_pos trivial] at h
      injection h with h2
      rw [h2]
    | false => simp [committedDims] at h

/-- C4 (amended): every LifeRecord committed by the ingestion pipeline has
a category in the nine-valued enum, at most eight tags, and every committed
dimension score in the 0..100 band — whether the score block is the
extractor's cleaned output, the rules scorer's, or the empty fallback; the
claimed `#seg/seg` tag shape holds for every rules-fallback tag but is not
enforced on AI-returned tags, which are committed verbatim. -/
theorem C4_committed_record (imageType : String) (hasImage : Bool)
    (aiOutcome : Option (Option String × Option (List (String × Int))))
    (categoryHint classifierSuggestion : Option String)
    (tagsOutcome : Option TagAIOutcome) (text : Option String)
    (meta : Option AnalyzerMeta) (rulesOk : Bool) (nowHour : Nat) :
    (createFeedRecord imageType hasImage aiOutcome categoryHint
      classifierSuggestion tagsOutcome text meta rulesOk nowHour).category ∈
        validCategories ∧
    (createFeedRecord imageType hasImage aiOutcome categoryHint
      classifierSuggestion tagsOutcome text meta rulesOk
        nowHour).tags.length ≤ 8 ∧
    (∀ kvs, (createFeedRecord imageType hasImage aiOutcome categoryHint
        classifierSuggestion tagsOutcome text meta rulesOk nowHour).dims =
          CommittedDims.llm kvs →
      ∀ kv ∈ kvs, kv.2 ≤ 100) ∧
    (∀ s, (createFeedRecord imageType hasImage aiOutcome categoryHint
        classifierSuggestion tagsOutcome text meta rulesOk nowHour).dims =
          CommittedDims.rules s →
      s.InRange) ∧
    (∀ t ∈ ruleBasedTags text (some (createFeedRecord imageType hasImage
        aiOutcome categoryHint classifierSuggestion tagsOutcome text meta
        rulesOk nowHour).category) nowHour,
      tagWellFormed t = true) := by
  refine ⟨resolveCategory_valid _ _ _ _ _, committedTags_length _ _ _ _,
    ?_, ?_, fun t ht => ruleBasedTags_wellFormed _ _ _ t ht⟩
  · intro kvs hdims kv hkv
    have h2 := committedDims_llm _ _ _ _ _ _ _ hdims
    cases hai : aiOutcome with
    | none =>
      rw [hai] at h2
      cases h2
    | some p =>
      rw [hai] at h2
      exact cleanDimensionScores_range p.2 kvs h2 kv hkv
  · intro s hdims
    have h2 := committedDims_rules _ _ _ _ _ _ _ hdims
    rw [h2]
    exact calculateDimensionScores_inRange _ _ _ _

/-! ### C9: the record-time parser of `DataExtractor._parse_record_time`

A Python naive `datetime` is modelled as a day number (days since the civil
epoch 1970-01-01, computed by the standard civil-calendar formula) together
with hour/minute/second fields; comparison is by total seconds.  The
standard-library calls `datetime.fromisoformat` and `datetime.strptime`
are external to the repository and are passed in as oracle parameters: an
ISO parse yields the wall-clock fields plus the optional UTC offset in
minutes, exactly the data `_parse_record_time` consumes. -/

/-- A naive wall-clock datetime: day number plus time-of-day fields. -/
structure PyDateTime where
  day : Int
  hour : Nat
  minute : Nat
  second : Nat
deriving DecidableEq, Repr

/-- The instant a naive datetime denotes, in seconds. -/
def PyDateTime.totalSeconds (dt : PyDateTime) : Int :=
  dt.day * 86400 + dt.hour * 3600 + dt.minute * 60 + dt.second

/-- Days from 1970-01-01 to year `y`, month `m`, day `d` of the proleptic
Gregorian calendar (the standard civil-from-days inverse formula). -/
def daysFromCivil (y : Int) (m d : Nat) : Int :=
  let y2 : Int := if m ≤ 2 then y - 1 else y
  let era : Int := Int.ediv y2 400
  let yoe : Int := y2 - era * 400
  let mp : Int := if m ≤ 2 then (m : Int) + 9 else (m : Int) - 3
  let doy : Int := Int.ediv (153 * mp + 2) 5 + (d : Int) - 1
  let doe : Int := yoe * 365 + Int.ediv yoe 4 - Int.ediv yoe 100 + doy
  era * 146097 + doe - 719468

/-- `dt - timedelta(days=n)`. -/
def subDays (dt : PyDateTime) (n : Nat) : PyDateTime :=
  { dt with day := dt.day - n }

/-- Shift a wall clock by `k` minutes, carrying into the day number. -/
def addMinutes (dt : PyDateTime) (k : Int) : PyDateTime :=
  let total : Int := dt.day * 1440 + dt.hour * 60 + dt.minute + k
  { day := Int.ediv total 1440,
    hour := (Int.emod total 1440).toNat / 60,
    minute := (Int.emod total 1440).toNat % 60,
    second := dt.second }

/-- `_to_naive_beijing` on an aware datetime with UTC offset `offMinutes`:
convert to UTC+8 wall time and drop the zone. -/
def toNaiveBeijing (dt : PyDateTime) (offMinutes : Int) : PyDateTime :=
  addMinutes dt (480 - offMinutes)

/-- `s.replace('Z', '+00:00')` over the character list. -/
def replaceZAux : List Char → List Char
  | [] => []
  | c :: rest =>
    if c = 'Z' then '+' :: '0' :: '0' :: ':' :: '0' :: '0' :: replaceZAux rest
    else c :: replaceZAux rest

/-- Python's `s.replace('Z', '+00:00')`. -/
def pyReplaceZ (s : String) : String := String.mk (replaceZAux s.data)

/-- Leading digit run folded into a number, for `re.search(r'(\d+)')`. -/
def takeDigits : List Char → Nat → Nat
  | [], acc => acc
  | c :: rest, acc =>
    if c.isDigit then takeDigits rest (acc * 10 + (c.toNat - 48)) else acc

/-- Leftmost maximal digit run of the list, as a number. -/
def firstNumberAux : List Char → Option Nat
  | [] => none
  | c :: rest =>
    if c.isDigit then some (takeDigits rest (c.toNat - 48))
    else firstNumberAux rest

/-- `re.search(r'(\d+)', t)` followed by `int(...)`. -/
def firstNumber (t : String) : Option Nat := firstNumberAux t.data

/-- Attempt to match `(\d{1,2}):(\d{2})` at the head of the
list; the two-digit hour is tried before the one-digit hour, as the greedy
quantifier does. -/
def matchHMAt : List Char → Option (Nat × Nat)
  | c0 :: c1 :: c2 :: c3 :: c4 :: _ =>
    if c0.isDigit then
      if c1.isDigit ∧ c2 = ':' ∧ c3.isDigit ∧ c4.isDigit then
        some ((c0.toNat - 48) * 10 + (c1.toNat - 48),
              (c3.toNat - 48) * 10 + (c4.toNat - 48))
      else if c1 = ':' ∧ c2.isDigit ∧ c3.isDigit then
        some (c0.toNat - 48, (c2.toNat - 48) * 10 + (c3.toNat - 48))
      else none
    else none
  | [c0, c1, c2, c3] =>
    if c0.isDigit ∧ c1 = ':' ∧ c2.isDigit ∧ c3.isDigit then
      some (c0.toNat - 48, (c2.toNat - 48) * 10 + (c3.toNat - 48))
    else none
  | _ => none

/-- Leftmost match of the hour:minute pattern anywhere in the list. -/
def searchHM : List Char → Option (Nat × Nat)
  | [] => none
  | c :: rest =>
    match matchHMAt (c :: rest) with
    | some r => some r
    | none => searchHM rest

/-- `re.search(r'(\d{1,2}):(\d{2})', t)`. -/
def timeSearch (t : String) : Option (Nat × Nat) := searchHM t.data

/-- The trailing `if '昨' in record_time_str` block: with a time match the
hour and minute are substituted into yesterday via `datetime.replace`,
which raises (caught as `None`) when they are out of range. -/
def yesterCheck (t : String) (c : PyDateTime) : Option PyDateTime :=
  if strContains t "昨" then
    match timeSearch t with
    | some p =>
      if p.1 ≤ 23 ∧ p.2 ≤ 59 then
        some { day := c.day - 1, hour := p.1, minute := p.2,
               second := c.second }
      else none
    | none => some (subDays c 1)
  else none

/-- The relative branch of `_parse_record_time`, applied to the lowered and
stripped string with `c` the naive-Beijing client anchor.  A `天前`/`days
ago` string without digits falls through to the `昨` check, as the missing
`return` does in the source. -/
def relativeParse (t : String) (c : PyDateTime) : Option PyDateTime :=
  if t = "今天" ∨ t = "today" ∨ t = "现在" ∨ t = "now" then some c
  else if t = "昨天" ∨ t = "yesterday" ∨ t = "昨晚" ∨ t = "昨天晚上" then
    some (subDays c 1)
  else if t = "前天" ∨ t = "大前天" then
    some (subDays c (if strContains t "大" = false then 2 else 3))
  else if strContains t "天前" ∨ strContains t "days ago" then
    match firstNumber t with
    | some n => some (subDays c n)
    | none => yesterCheck t c
  else yesterCheck t c

/-- `DataExtractor._parse_record_time`, with the stdlib ISO parsers as
oracles: `fromIso` returns the wall-clock fields and the optional UTC
offset in minutes, `strptimeDate` parses a `%Y-%m-%d` date (noon is then
substituted); an oracle returning `none` models the exception the source
catches into a `None` result.  `naiveClient` is the naive-Beijing client
anchor `_to_naive_beijing(client_dt)`. -/
def parseRecordTime (fromIso : String → Option (PyDateTime × Option Int))
    (strptimeDate : String → Option PyDateTime)
    (s : String) (naiveClient : PyDateTime) : Option PyDateTime :=
  if s = "" then none
  else if strContains s "T" || strContains s "-" then
    if s.length = 10 then
      match strptimeDate s with
      | some d => some { d with hour := 12 }
      | none => none
    else
      match fromIso (pyReplaceZ s) with
      | some (dt, none) => some dt
      | some (dt, some off) => some (toNaiveBeijing dt off)
      | none => none
  else relativeParse (pyStrip (pyLower s)) naiveClient

/-- A demo anchor: naive-Beijing client time 2026-02-05 12:00:00. -/
def anchor2026 : PyDateTime := ⟨daysFromCivil 2026 2 5, 12, 0, 0⟩

/-- A fragment of `datetime.fromisoformat`, fixed on the one string the
counterexample feeds it: `"2099-01-01T00:00:00"` parses to midnight of
2099-01-01 with no UTC offset. -/
def demoFromIso (s : String) : Option (PyDateTime × Option Int) :=
  if s = "2099-01-01T00:00:00" then
    some (⟨daysFromCivil 2099 1 1, 0, 0, 0⟩, none)
  else none

/-- A `strptime` oracle that accepts nothing, unused by the demo inputs. -/
def demoStrptime (_ : String) : Option PyDateTime := none

theorem subDays_totalSeconds (c : PyDateTime) (n : Nat) :
    (subDays c n).totalSeconds = c.totalSeconds - n * 86400 := by
  simp [subDays, PyDateTime.totalSeconds]
  ring

theorem yesterCheck_le (t : String) (c dt : PyDateTime)
    (h : yesterCheck t c = some dt) :
    dt.totalSeconds ≤ c.totalSeconds := by
  unfold yesterCheck at h
  split at h
  · cases hm : timeSearch t with
    | some p =>
      simp only [hm] at h
      split at h
      · injection h with h2
        subst h2
        simp only [PyDateTime.totalSeconds]
        omega
      · cases h
    | none =>
      simp only [hm] at h
      injection h with h2
      subst h2
      rw [subDays_totalSeconds]
      omega
  · cases h

theorem relativeParse_le (t : String) (c dt : PyDateTime)
    (h : relativeParse t c = some dt) :
    dt.totalSeconds ≤ c.totalSeconds := by
  unfold relativeParse at h
  split at h
  · injection h with h2
    subst h2
    exact le_refl _
  · split at h
    · injection h with h2
      subst h2
      rw [subDays_totalSeconds]
      omega
    · split at h
      · injection h with h2
        subst h2
        rw [subDays_totalSeconds]
        split <;> omega
      · split at h
        · cases hn : firstNumber t with
          | some n =>
            simp only [hn] at h
            injection h with h2
            subst h2
            rw [subDays_totalSeconds]
            omega
          | none =>
            simp only [hn] at h
            exact yesterCheck_le t c dt h
        · exact yesterCheck_le t c dt h

/-- C9 counterexample: `_parse_record_time` applies no future-clamp on the
ISO branch — a far-future ISO string from the AI is committed verbatim, so
the parsed record time exceeds the submission anchor by far more than one
day. -/
theorem C9_counterexample :
    parseRecordTime demoFromIso demoStrptime "2099-01-01T00:00:00"
        anchor2026 = some ⟨daysFromCivil 2099 1 1, 0, 0, 0⟩ ∧
      anchor2026.totalSeconds + 86400 <
        (PyDateTime.mk (daysFromCivil 2099 1 1) 0 0 0).totalSeconds := by
  constructor
  · rfl
  · decide

/-- C9 (amended): only the relative branch of the record-time parser is
anchored to the submission time — a relative string (one containing
neither `T` nor `-`) that parses at all yields a record time at or before
the client anchor, hence within the claimed one-day bound; ISO strings
bypass the anchor entirely (see the counterexample). -/
theorem C9_record_time (fromIso : String → Option (PyDateTime × Option Int))
    (strptimeDate : String → Option PyDateTime)
    (s : String) (anchor dt : PyDateTime)
    (hrel : (strContains s "T" || strContains s "-") = false)
    (h : parseRecordTime fromIso strptimeDate s anchor = some dt) :
    dt.totalSeconds ≤ anchor.totalSeconds ∧
      dt.totalSeconds ≤ anchor.totalSeconds + 86400 := by
  unfold parseRecordTime at h
  split at h
  · cases h
  · rw [hrel] at h
    simp only [Bool.false_eq_true, if_false] at h
    have h1 := relativeParse_le _ _ _ h
    exact ⟨h1, le_trans h1 (by omega)⟩

theorem C9_witness :
    (strContains "昨晚 23:30" "T" || strContains "昨晚 23:30" "-") = false ∧
    parseRecordTime demoFromIso demoStrptime "昨晚 23:30" anchor2026 =
      some ⟨daysFromCivil 2026 2 5 - 1, 23, 30, 0⟩ ∧
    ((PyDateTime.mk (daysFromCivil 2026 2 5 - 1) 23 30 0).totalSeconds ≤
        anchor2026.totalSeconds ∧
      (PyDateTime.mk (daysFromCivil 2026 2 5 - 1) 23 30 0).totalSeconds ≤
        anchor2026.totalSeconds + 86400) :=
  ⟨by decide, by decide,
   C9_record_time demoFromIso demoStrptime "昨晚 23:30" anchor2026
     ⟨daysFromCivil 2026 2 5 - 1, 23, 30, 0⟩ (by decide) (by decide)⟩


/-! ### C5: the soft-delete round trip of the feed router

The `life_stream` table is modelled as a list of stored records and the
vector collection as the list of its indexed record-id keys.  SQLAlchemy's
`query(...).filter(id == rid).first()` is a first-match scan, `ORDER BY
created_at DESC` is an insertion sort on the submission stamp, and
`rag.remove_record` filters the key out of the collection when the
best-effort call succeeds (`ragOk`). -/

/-- A row of the `life_stream` table, restricted to the fields the
soft-delete endpoints consult. -/
structure StoredRecord where
  id : String
  createdAt : Nat
  category : String
  is_deleted : Bool
deriving DecidableEq, Repr

/-- `db.query(LifeStream).filter(LifeStream.id == rid).first()`. -/
def queryFirst (rid : String) : List StoredRecord → Option StoredRecord
  | [] => none
  | r :: rest => if r.id = rid then some r else queryFirst rid rest

/-- Insert into a list kept in descending `created_at` order. -/
def insertDesc (r : StoredRecord) : List StoredRecord → List StoredRecord
  | [] => [r]
  | x :: rest =>
    if x.createdAt ≤ r.createdAt then r :: x :: rest
    else x :: insertDesc r rest

/-- `ORDER BY created_at DESC`. -/
def sortByCreatedDesc (l : List StoredRecord) : List StoredRecord :=
  l.foldr insertDesc []

/-- `GET /feed/history`: exclude soft-deleted rows, apply the optional
upper-cased category filter, order by submission time descending, then
page with offset and limit. -/
def getHistory (db : List StoredRecord) (category : Option String)
    (offset limit : Nat) : List StoredRecord :=
  let alive := db.filter (fun r => !r.is_deleted)
  let chosen := match category with
    | some c => alive.filter (fun r => r.category == pyUpper c)
    | none => alive
  ((sortByCreatedDesc chosen).drop offset).take limit

/-- `GET /feed/{record_id}`: a bare first-match on the id with no
`is_deleted` filter; `none` is the 404 case. -/
def getRecordDetail (db : List StoredRecord) (rid : String) :
    Option StoredRecord :=
  queryFirst rid db

/-- Set `is_deleted` on the first row matching the id, as mutating the
ORM object returned by `.first()` and committing does. -/
def markDeletedFirst (rid : String) : List StoredRecord → List StoredRecord
  | [] => []
  | r :: rest =>
    if r.id = rid then { r with is_deleted := true } :: rest
    else r :: markDeletedFirst rid rest

/-- `DELETE /feed/{record_id}`: 404 (`none`) when no row matches;
otherwise mark the first match deleted and, when the best-effort RAG call
succeeds, drop the id from the vector collection.  Returns the new table
and collection. -/
def deleteRecord (db : List StoredRecord) (vec : List String)
    (ragOk : Bool) (rid : String) :
    Option (List StoredRecord × List String) :=
  match queryFirst rid db with
  | none => none
  | some _ =>
    some (markDeletedFirst rid db,
      if ragOk then vec.filter (fun k => k ≠ rid) else vec)

theorem mem_insertDesc (r a : StoredRecord) (l : List StoredRecord)
    (h : a ∈ insertDesc r l) : a = r ∨ a ∈ l := by
  induction l with
  | nil =>
    unfold insertDesc at h
    exact Or.inl (List.mem_singleton.mp h)
  | cons x rest ih =>
    unfold insertDesc at h
    split at h
    · simpa using h
    · rcases List.mem_cons.mp h with h | h
      · exact Or.inr (by simp [h])
      · rcases ih h with h2 | h2
        · exact Or.inl h2
        · exact Or.inr (List.mem_cons_of_mem x h2)

theorem mem_sortByCreatedDesc (a : StoredRecord) (l : List StoredRecord)
    (h : a ∈ sortByCreatedDesc l) : a ∈ l := by
  induction l with
  | nil => simp [sortByCreatedDesc] at h
  | cons x rest ih =>
    rcases mem_insertDesc x a (sortByCreatedDesc rest) h with h2 | h2
    · simp [h2]
    · exact List.mem_cons_of_mem x (ih h2)

theorem getHistory_mem (db : List StoredRecord) (cat : Option String)
    (off lim : Nat) (r : StoredRecord) (h : r ∈ getHistory db cat off lim) :
    r ∈ db ∧ r.is_deleted = false := by
  unfold getHistory at h
  cases cat with
  | some c =>
    have h1 : r ∈ sortByCreatedDesc ((db.filter
        (fun x => !x.is_deleted)).filter
          (fun x => x.category == pyUpper c)) :=
      List.drop_subset _ _ (List.take_subset _ _ h)
    have h2 := mem_sortByCreatedDesc _ _ h1
    have h4 := List.mem_filter.mp (List.mem_filter.mp h2).1
    refine ⟨h4.1, ?_⟩
    simpa using h4.2
  | none =>
    have h1 : r ∈ sortByCreatedDesc (db.filter (fun x => !x.is_deleted)) :=
      List.drop_subset _ _ (List.take_subset _ _ h)
    have h2 := mem_sortByCreatedDesc _ _ h1
    have h4 := List.mem_filter.mp h2
    refine ⟨h4.1, ?_⟩
    simpa using h4.2

theorem markDeletedFirst_mem (rid : String) (db : List StoredRecord)
    (hnodup : (db.map StoredRecord.id).Nodup) (r : StoredRecord)
    (hr : r ∈ markDeletedFirst rid db) (hid : r.id = rid) :
    r.is_deleted = true := by
  induction db with
  | nil => cases hr
  | cons a rest ih =>
    rw [List.map_cons, List.nodup_cons] at hnodup
    unfold markDeletedFirst at hr
    split at hr
    · rcases List.mem_cons.mp hr with h2 | h2
      · rw [h2]
      · exact absurd (hid ▸ List.mem_map_of_mem StoredRecord.id h2)
          (by simpa [*] using hnodup.1)
    · rcases List.mem_cons.mp hr with h2 | h2
      · exact absurd (h2 ▸ hid) (by assumption)
      · exact ih hnodup.2 h2

theorem queryFirst_markDeletedFirst (rid : String) (db : List StoredRecord)
    (r0 : StoredRecord) (h : queryFirst rid db = some r0) :
    queryFirst rid (markDeletedFirst rid db) =
      some { r0 with is_deleted := true } := by
  induction db with
  | nil => cases h
  | cons a rest ih =>
    unfold queryFirst at h
    by_cases ha : a.id = rid
    · rw [if_pos ha] at h
      injection h with h0
      subst h0
      simp only [markDeletedFirst, if_pos ha]
      unfold queryFirst
      rw [if_pos ha]
    · rw [if_neg ha] at h
      simp only [markDeletedFirst, if_neg ha]
      unfold queryFirst
      rw [if_neg ha]
      exact ih h

/-- C5 counterexample: after a successful soft delete, `GET
/feed/{id}` still returns the record — the detail query has no
`is_deleted` filter, so the claimed 404 never happens. -/
theorem C5_counterexample :
    deleteRecord [⟨"r1", 5, "MOOD", false⟩] ["r1"] true "r1" =
      some ([⟨"r1", 5, "MOOD", true⟩], []) ∧
    getRecordDetail [⟨"r1", 5, "MOOD", true⟩] "r1" =
      some ⟨"r1", 5, "MOOD", true⟩ := by
  constructor
  · rfl
  · rfl

/-- C5 (amended): after `DELETE /feed/{id}` succeeds on a table with
distinct ids, the record is absent from every `GET /feed/history` page and
the id is gone from the vector collection when the best-effort RAG
removal succeeded; but `GET /feed/{id}` does NOT return 404 — it
still serves the record, now flagged deleted. -/
theorem C5_soft_delete (db : List StoredRecord) (vec : List String)
    (ragOk : Bool) (rid : String) (db2 : List StoredRecord)
    (vec2 : List String)
    (hnodup : (db.map StoredRecord.id).Nodup)
    (hdel : deleteRecord db vec ragOk rid = some (db2, vec2)) :
    (∀ cat off lim r, r ∈ getHistory db2 cat off lim → r.id ≠ rid) ∧
    (ragOk = true → rid ∉ vec2) ∧
    (∃ r, getRecordDetail db2 rid = some r ∧ r.is_deleted = true) := by
  unfold deleteRecord at hdel
  cases hq : queryFirst rid db with
  | none =>
    rw [hq] at hdel
    cases hdel
  | some r0 =>
    rw [hq] at hdel
    injection hdel with hdel2
    injection hdel2 with hdb hvec
    subst hdb
    subst hvec
    refine ⟨?_, ?_, ?_⟩
    · intro cat off lim r hr hid
      have h1 := getHistory_mem _ _ _ _ _ hr
      have h2 := markDeletedFirst_mem rid db hnodup r h1.1 hid
      rw [h1.2] at h2
      cases h2
    · intro hrag
      subst hrag
      simp
    · exact ⟨{ r0 with is_deleted := true },
        queryFirst_markDeletedFirst rid db r0 hq, rfl⟩

theorem C5_witness :
    ([⟨"r1", 5, "MOOD", false⟩, ⟨"r2", 7, "WORK", false⟩].map
        StoredRecord.id).Nodup ∧
    deleteRecord [⟨"r1", 5, "MOOD", false⟩, ⟨"r2", 7, "WORK", false⟩]
        ["r1", "r2"] true "r1" =
      some ([⟨"r1", 5, "MOOD", true⟩, ⟨"r2", 7, "WORK", false⟩], ["r2"]) ∧
    (∀ cat off lim r,
        r ∈ getHistory [⟨"r1", 5, "MOOD", true⟩, ⟨"r2", 7, "WORK", false⟩]
          cat off lim → r.id ≠ "r1") ∧
    (true = true →
      "r1" ∉ ["r2"]) ∧
    (∃ r, getRecordDetail
        [⟨"r1", 5, "MOOD", true⟩, ⟨"r2", 7, "WORK", false⟩] "r1" =
      some r ∧ r.is_deleted = true) :=
  ⟨by decide, by decide,
   C5_soft_delete [⟨"r1", 5, "MOOD", false⟩, ⟨"r2", 7, "WORK", false⟩]
     ["r1", "r2"] true "r1"
     [⟨"r1", 5, "MOOD", true⟩, ⟨"r2", 7, "WORK", false⟩] ["r2"]
     (by decide) (by decide)⟩


/-! ### C6: persistence around the chat SSE stream

`POST /chat/stream` is modelled as the list of database and stream actions
the endpoint performs, in order.  The upstream generator's output is the
list of SSE chunks the client actually consumed (a disconnect simply
truncates it); `json.loads` on a chunk body is an oracle returning the
optional `content` field and the `done` flag, `none` being a parse error
the accumulator swallows. -/

/-- The observable actions of the stream endpoint. -/
inductive ChatAction where
  | commitUser (content : String)
  | startStream
  | yieldMeta
  | yieldChunk (raw : String)
  | openFresh
  | persistAssistant (content : String)
  | touchUpdatedAt
  | commitFresh
  | closeFresh
deriving DecidableEq, Repr

/-- Python's `s.startswith(p)`. -/
def pyStartsWith (s p : String) : Bool := p.data.isPrefixOf s.data

/-- Python's `s[n:]`. -/
def strDrop (s : String) (n : Nat) : String := String.mk (s.data.drop n)

/-- What one chunk contributes to the accumulated reply: the `content`
field when the chunk is a `data: ` line whose body parses with a truthy
`content` and a falsy `done`, nothing otherwise. -/
def chunkDelta (parse : String → Option (Option String × Bool))
    (chunk : String) : String :=
  if pyStartsWith chunk "data: " then
    match parse (pyStrip (strDrop chunk 6)) with
    | some (some c, false) => if c = "" then "" else c
    | _ => ""
  else ""

/-- The reply text accumulated over the consumed chunks. -/
def accumulatedContent (parse : String → Option (Option String × Bool))
    (chunks : List String) : String :=
  chunks.foldl (fun acc ch => acc ++ chunkDelta parse ch) ""

/-- The chunk loop of `stream_and_persist`: before the first chunk the
conversation-meta line is emitted, each chunk is accumulated and yielded;
returns the emitted actions and the final accumulation. -/
def streamLoop (parse : String → Option (Option String × Bool)) :
    List String → String → Bool → List ChatAction × String
  | [], acc, _ => ([], acc)
  | ch :: rest, acc, metaSent =>
    let pre : List ChatAction :=
      if metaSent then [] else [ChatAction.yieldMeta]
    let tail := streamLoop parse rest (acc ++ chunkDelta parse ch) true
    (pre ++ ChatAction.yieldChunk ch :: tail.1, tail.2)

/-- The `finally` block: a nonempty accumulation is written under a fresh
session (add assistant message, touch `updated_at`, commit, close); an
empty one is dropped. -/
def persistTail (accumulated : String) : List ChatAction :=
  if accumulated = "" then []
  else [ChatAction.openFresh, ChatAction.persistAssistant accumulated,
        ChatAction.touchUpdatedAt, ChatAction.commitFresh,
        ChatAction.closeFresh]

/-- The full action trace of `stream_message`: the user message is added
and committed, the LLM stream starts, the chunk loop runs on whatever the
client consumed, and the `finally` block runs in every termination mode. -/
def streamMessageActions (parse : String → Option (Option String × Bool))
    (message : String) (consumed : List String) : List ChatAction :=
  [ChatAction.commitUser message, ChatAction.startStream] ++
    (streamLoop parse consumed "" false).1 ++
    persistTail (streamLoop parse consumed "" false).2

/-- Recognises the assistant-message insert. -/
def isPersistAssistant : ChatAction → Bool
  | ChatAction.persistAssistant _ => true
  | _ => false

theorem streamLoop_snd (parse : String → Option (Option String × Bool))
    (chunks : List String) :
    ∀ acc ms, (streamLoop parse chunks acc ms).2 =
      chunks.foldl (fun a ch => a ++ chunkDelta parse ch) acc := by
  induction chunks with
  | nil => intro acc ms; rfl
  | cons ch rest ih =>
    intro acc ms
    simp only [streamLoop, List.foldl_cons]
    exact ih _ true

theorem streamLoop_no_persist
    (parse : String → Option (Option String × Bool))
    (chunks : List String) :
    ∀ acc ms, (streamLoop parse chunks acc ms).1.countP
      (fun a => isPersistAssistant a) = 0 := by
  induction chunks with
  | nil => intro acc ms; rfl
  | cons ch rest ih =>
    intro acc ms
    simp only [streamLoop]
    rw [List.countP_append, List.countP_cons,
      ih (acc ++ chunkDelta parse ch) true]
    cases ms <;>
      simp [List.countP_nil, List.countP_cons, isPersistAssistant]

theorem persistTail_count (accumulated : String) :
    (persistTail accumulated).countP (fun a => isPersistAssistant a) ≤ 1 := by
  unfold persistTail
  split
  · simp
  · simp [List.countP, List.countP.go, isPersistAssistant]

/-- C6: in every `POST /chat/stream` exchange the user message is
committed strictly before the stream starts; the assistant reply is
persisted at most once; an empty accumulation is never persisted; and a
nonempty accumulation makes the trace end — after every yielded chunk —
with the fresh-session block that persists exactly the accumulated text
and advances `updated_at` before committing. -/
theorem C6_chat_stream (parse : String → Option (Option String × Bool))
    (message : String) (consumed : List String) :
    (streamMessageActions parse message consumed).take 2 =
      [ChatAction.commitUser message, ChatAction.startStream] ∧
    (streamMessageActions parse message consumed).countP
      (fun a => isPersistAssistant a) ≤ 1 ∧
    (accumulatedContent parse consumed = "" →
      (streamMessageActions parse message consumed).countP
        (fun a => isPersistAssistant a) = 0) ∧
    (accumulatedContent parse consumed ≠ "" →
      streamMessageActions parse message consumed =
        [ChatAction.commitUser message, ChatAction.startStream] ++
          (streamLoop parse consumed "" false).1 ++
          [ChatAction.openFresh,
           ChatAction.persistAssistant (accumulatedContent parse consumed),
           ChatAction.touchUpdatedAt, ChatAction.commitFresh,
           ChatAction.closeFresh]) := by
  have hsnd : (streamLoop parse consumed "" false).2 =
      accumulatedContent parse consumed :=
    streamLoop_snd parse consumed "" false
  refine ⟨rfl, ?_, ?_, ?_⟩
  · unfold streamMessageActions
    rw [List.countP_append, List.countP_append]
    have h1 : ([ChatAction.commitUser message,
        ChatAction.startStream] : List ChatAction).countP
          (fun a => isPersistAssistant a) = 0 := by
      simp [List.countP, List.countP.go, isPersistAssistant]
    rw [h1, streamLoop_no_persist]
    simpa using persistTail_count _
  · intro hempty
    unfold streamMessageActions
    rw [List.countP_append, List.countP_append, streamLoop_no_persist,
      hsnd, hempty]
    simp [persistTail, List.countP, List.countP.go, isPersistAssistant]
  · intro hne
    unfold streamMessageActions
    rw [hsnd]
    unfold persistTail
    rw [if_neg hne]


end Vibingu
